import Mathlib

/-!
Ping-tree traffic routing: the routing decision engine.

A shallow embedding of `lib/services/route-service.js` and of the parts of
`lib/services/target-service.js` it relies on, followed by the properties of
the routing decision that the specification states.

Conventions of the embedding.

* JavaScript built-ins whose full behaviour is fixed by ECMAScript and not by
  this repository (`String.prototype.toLowerCase`, `parseFloat`, `parseInt`)
  are fields of `Builtins`; the service functions take them as an argument and
  every theorem holds for every choice of them.  `refBuiltins` is one concrete,
  executable choice (ASCII letters, plain decimal literals).
* A JavaScript Number is a `JSNumber`: `NaN`, an infinity, or a finite value.
  Only the comparison operators are applied to Numbers by the service.
* `async` functions are functions of the store: a read takes the store, a
  write returns the new store.
-/

namespace PingTree

/-! ## JavaScript values -/

/-- An ECMAScript Number as far as `<`, `>` and `>=` can tell: `NaN`, one of the
two infinities, or a finite value (`+0` and `-0` compare equal and are both
`fin 0`). -/
inductive JSNumber where
  | nan
  | negInf
  | fin (q : ℚ)
  | posInf
  deriving DecidableEq

namespace JSNumber

/-- The operator `a < b` on two Numbers: false as soon as one side is `NaN`. -/
def lt : JSNumber → JSNumber → Bool
  | nan, _ => false
  | _, nan => false
  | negInf, negInf => false
  | negInf, _ => true
  | fin _, negInf => false
  | fin a, fin b => decide (a < b)
  | fin _, posInf => true
  | posInf, _ => false

/-- The operator `a > b`, which ECMAScript evaluates as `b < a`. -/
def gt (a b : JSNumber) : Bool := lt b a

/-- The operator `a >= b`: false when one side is `NaN`, otherwise the negation
of `a < b`. -/
def ge : JSNumber → JSNumber → Bool
  | nan, _ => false
  | _, nan => false
  | a, b => !(lt a b)

/-- The test `!isNaN(x)`. -/
def isNumber : JSNumber → Bool
  | nan => false
  | _ => true

/-- The Number denoted by a natural number. -/
def ofNat (n : Nat) : JSNumber := fin (n : ℚ)

end JSNumber

/-- The ECMAScript built-ins that the services apply to strings. -/
structure Builtins where
  /-- The method `String.prototype.toLowerCase`. -/
  toLowerCase : String → String
  /-- The function `parseFloat(s)`. -/
  parseFloat : String → JSNumber
  /-- The function `parseInt(s, 10)`. -/
  parseInt : String → JSNumber

/-! ## Data model -/

/-- One rule group of an acceptance rule set, `{ $in: [...] }`.  The field is
`none` when the group carries no `$in` member. -/
structure RuleGroup where
  in_ : Option (List String)
  deriving DecidableEq, Repr

/-- The acceptance rule set `target.accept`: each of the two groups may be
missing. -/
structure Accept where
  geoState : Option RuleGroup
  hour : Option RuleGroup
  deriving DecidableEq, Repr

/-- A target record as `target-service.js` stores it.  `value` and
`maxAcceptsPerDay` are kept as the text that `parseFloat` and `parseInt` read;
`accept` is `none` when the record has no `accept` member. -/
structure Target where
  id : String
  url : String
  value : String
  maxAcceptsPerDay : String
  accept : Option Accept
  deriving DecidableEq, Repr

/-- The empty rule set `{}`, the default of `const { accept = {} } = target`. -/
def Accept.empty : Accept := { geoState := none, hour := none }

/-- The expression `accept.geoState?.$in`: `none` stands for `undefined`. -/
def Accept.geoStateIn (accept : Accept) : Option (List String) :=
  match accept.geoState with
  | none => none
  | some g => g.in_

/-- The expression `accept.hour?.$in`: `none` stands for `undefined`. -/
def Accept.hourIn (accept : Accept) : Option (List String) :=
  match accept.hour with
  | none => none
  | some g => g.in_

/-! ## `route-service.js`: eligibility -/

/-- The function `isTargetEligible(target, geoState, visitHour)`. -/
def isTargetEligible (js : Builtins) (target : Target) (geoState visitHour : String) : Bool :=
  let accept := target.accept.getD Accept.empty
  let geoCheck :=
    match accept.geoStateIn with
    | none => true
    | some states => states.any (fun state => js.toLowerCase state == js.toLowerCase geoState)
  let hourCheck :=
    match accept.hourIn with
    | none => true
    | some hours => hours.contains visitHour
  geoCheck && hourCheck

/-- The geoState inclusion set of a target, `none` when it has none. -/
def Target.geoStateSet (target : Target) : Option (List String) :=
  (target.accept.getD Accept.empty).geoStateIn

/-- The hour inclusion set of a target, `none` when it has none. -/
def Target.hourSet (target : Target) : Option (List String) :=
  (target.accept.getD Accept.empty).hourIn

/-! ## The Redis store -/

/-- A write command sent to Redis by the services. -/
inductive RedisWrite where
  | incr (key : String)
  | expire (key : String) (seconds : Nat)
  | sadd (key member : String)
  | set (key : String) (value : Target)
  deriving DecidableEq, Repr

/-- Modelled from the spec: the Redis client module (required as `../redis`) is
not among the sources.  The store holds the set of target ids, the target
records and the daily quota counters; a counter is a per-(target,
calendar-day) integer that is implicitly zero until its first increment.  Records are
kept decoded (the stored text is `JSON.stringify(target)`), counters as the
number whose decimal text Redis stores.  Both maps are indexed by the full key
name.  `ttl` is the time-to-live last given to a key by EXPIRE, and `writes` is
the sequence of write commands received, oldest first. -/
structure Redis where
  sets : String → List String
  records : String → Option Target
  counters : String → Option Nat
  ttl : String → Option Nat
  writes : List RedisWrite

namespace Redis

/-- Modelled from the spec: the command `SMEMBERS key` of the missing client,
the members of a set in the enumeration order of the store. -/
def smembers (redis : Redis) (key : String) : List String := redis.sets key

/-- Modelled from the spec: the command `GET key` of the missing client on a
record key, with the reply decoded; `none` is the reply `null`. -/
def getRecord (redis : Redis) (key : String) : Option Target := redis.records key

/-- Modelled from the spec: the command `GET key` of the missing client on a
counter key; `none` is the reply `null` of an absent counter, and `some n` the
reply that is the decimal text of `n`. -/
def get (redis : Redis) (key : String) : Option Nat := redis.counters key

/-- Whether a key is present in the store. -/
def hasKey (redis : Redis) (key : String) : Bool :=
  (redis.counters key).isSome || (redis.records key).isSome || !(redis.sets key).isEmpty

/-- Modelled from the spec: the command `INCR key` of the missing client, the
atomic increment of a named counter.  A missing counter is created at 1, an
existing one is increased by 1; the time-to-live of the key is left as it is. -/
def incr (redis : Redis) (key : String) : Redis :=
  { redis with
    counters := fun k =>
      if k = key then
        match redis.counters key with
        | none => some 1
        | some n => some (n + 1)
      else redis.counters k
    writes := redis.writes ++ [RedisWrite.incr key] }

/-- Modelled from the spec: the command `EXPIRE key seconds` of the missing
client, which (re)sets the time-to-live of an existing key and does nothing to a
missing one. -/
def expire (redis : Redis) (key : String) (seconds : Nat) : Redis :=
  { redis with
    ttl := fun k => if k = key ∧ redis.hasKey key = true then some seconds else redis.ttl k
    writes := redis.writes ++ [RedisWrite.expire key seconds] }

/-- Modelled from the spec: the command `SADD key member` of the missing client.
A member the set does not hold yet is added, taken here to come last in the
enumeration; a member it holds is left where it is. -/
def sadd (redis : Redis) (key member : String) : Redis :=
  { redis with
    sets := fun k =>
      if k = key then
        (if member ∈ redis.sets key then redis.sets key else redis.sets key ++ [member])
      else redis.sets k
    writes := redis.writes ++ [RedisWrite.sadd key member] }

/-- Modelled from the spec: the command `SET key value` of the missing client on
a record key, the value being the text `JSON.stringify(target)`.  The record
under the key is replaced and the key loses its time-to-live. -/
def set (redis : Redis) (key : String) (value : Target) : Redis :=
  { redis with
    records := fun k => if k = key then some value else redis.records k
    ttl := fun k => if k = key then none else redis.ttl k
    writes := redis.writes ++ [RedisWrite.set key value] }

/-- The store after `FLUSHDB`: no key at all, no command received. -/
def empty : Redis :=
  { sets := fun _ => [], records := fun _ => none, counters := fun _ => none,
    ttl := fun _ => none, writes := [] }

end Redis

/-! ## `target-service.js`: reading the repository -/

/-- The constant `TARGET_SET_KEY`. -/
def TARGET_SET_KEY : String := "targets"

/-- The function `getTargetKey(id)`. -/
def getTargetKey (id : String) : String := "target:" ++ id

/-- The function `getAllTargets()`: the records of the ids in the target set, in
the order of the set, without the ids that have no record. -/
def getAllTargets (redis : Redis) : List Target :=
  let ids := redis.smembers TARGET_SET_KEY
  if ids.length = 0 then []
  else
    let targets := ids.map (fun id => redis.getRecord (getTargetKey id))
    targets.filterMap (fun t => t)

/-- The body of a create request that has passed the presence test of the
controller (`url`, `value` and `maxAcceptsPerDay` are there); `id` and `accept`
may be missing. -/
structure TargetData where
  id : Option String
  url : String
  value : String
  maxAcceptsPerDay : String
  accept : Option Accept
  deriving DecidableEq, Repr

/-- The body of an update request: every member may be missing. -/
structure TargetUpdates where
  id : Option String
  url : Option String
  value : Option String
  maxAcceptsPerDay : Option String
  accept : Option Accept
  deriving DecidableEq, Repr

/-- The function `createTarget(targetData)`.  The argument `cuid` is the string
that the call `cuid()` of the external id generator returns; it is used when
`targetData.id` is missing or falsy (the empty string).  The two commands of
the `Promise.all` are sent in the order of the array. -/
def createTarget (cuid : String) (redis : Redis) (targetData : TargetData) : Target × Redis :=
  let id :=
    match targetData.id with
    | none => cuid
    | some given => if given = "" then cuid else given
  let target : Target :=
    { id := id
      url := targetData.url
      value := targetData.value
      maxAcceptsPerDay := targetData.maxAcceptsPerDay
      accept := some (targetData.accept.getD Accept.empty) }
  (target, (redis.sadd TARGET_SET_KEY id).set (getTargetKey id) target)

/-- The function `getTargetById(id)`: `none` is `null`. -/
def getTargetById (redis : Redis) (id : String) : Option Target :=
  redis.getRecord (getTargetKey id)

/-- The function `updateTarget(id, updates)`: `none` is `null`, returned without
any write when there is no record under the id.  The object literal spreads
`existing`, then `updates`, then sets `id`, `value` and `maxAcceptsPerDay`. -/
def updateTarget (redis : Redis) (id : String) (updates : TargetUpdates) :
    Option Target × Redis :=
  match getTargetById redis id with
  | none => (none, redis)
  | some existing =>
    let updated : Target :=
      { id := id
        url := updates.url.getD existing.url
        value := match updates.value with
          | some v => v
          | none => existing.value
        maxAcceptsPerDay := match updates.maxAcceptsPerDay with
          | some m => m
          | none => existing.maxAcceptsPerDay
        accept := match updates.accept with
          | some a => some a
          | none => existing.accept }
    (some updated, redis.set (getTargetKey id) updated)

/-! ## `route-service.js`: quota, selection and the routing decision -/

/-- The constant `EXPIRE_SECONDS`. -/
def EXPIRE_SECONDS : Nat := 86400

/-- The function `getAcceptsKey(targetId, date)`. -/
def getAcceptsKey (targetId date : String) : String :=
  "target:" ++ targetId ++ ":accepts:" ++ date

/-- The function `getDailyAccepts(targetId, date)`: `count ? parseInt(count, 10) : 0`.
The reply `count` is `null`, which is falsy, or the decimal text of the counter,
which is a non-empty string and which `parseInt` reads back as the counter (a
counter stays far below 2^53, where every integer is a Number). -/
def getDailyAccepts (redis : Redis) (targetId date : String) : JSNumber :=
  match redis.get (getAcceptsKey targetId date) with
  | none => JSNumber.ofNat 0
  | some count => JSNumber.ofNat count

/-- The function `incrementDailyAccepts(targetId, date)`. -/
def incrementDailyAccepts (redis : Redis) (targetId date : String) : Redis :=
  let key := getAcceptsKey targetId date
  (redis.incr key).expire key EXPIRE_SECONDS

/-- The function `filterEligibleTargets(targets, geoState, visitHour, dateKey)`:
the loop over `targets` that pushes onto `eligible`. -/
def filterEligibleTargets (js : Builtins) (redis : Redis) (targets : List Target)
    (geoState visitHour dateKey : String) : List Target :=
  targets.foldl
    (fun eligible target =>
      if !(isTargetEligible js target geoState visitHour) then eligible
      else
        let accepts := getDailyAccepts redis target.id dateKey
        if JSNumber.lt accepts (js.parseInt target.maxAcceptsPerDay) then eligible ++ [target]
        else eligible)
    []

/-- The function `selectBestTarget(targets)`: `Array.prototype.reduce` without
an initial value, which throws a `TypeError` on an empty array (`none`). -/
def selectBestTarget (js : Builtins) : List Target → Option Target
  | [] => none
  | first :: rest =>
    some (rest.foldl
      (fun best current =>
        if JSNumber.gt (js.parseFloat current.value) (js.parseFloat best.value) then current
        else best)
      first)

/-- A visit as the route controller hands it to the service.  `timestamp` is
the time value of `new Date(timestamp)`, in milliseconds since the epoch; the
controller lets through only timestamps for which it is a valid date. -/
structure Visit where
  geoState : String
  timestamp : Int
  deriving DecidableEq, Repr

/-- The `target` member of an accept decision. -/
structure DecisionTarget where
  id : String
  url : String
  value : String
  deriving DecidableEq, Repr

/-- The object `routeVisitor` resolves to: `{ decision: 'reject' }` or
`{ decision: 'accept', target: { id, url, value } }`. -/
inductive Decision where
  | reject
  | accept (target : DecisionTarget)
  deriving DecidableEq, Repr

namespace Date

/-- The method `getUTCHours()`: `floor(t / msPerHour) modulo 24`. -/
def getUTCHours (t : Int) : Nat := ((t / 3600000) % 24).toNat

/-- The day number `floor(t / msPerDay)` of a time value. -/
def day (t : Int) : Int := t / 86400000

/-- Year, month and day of the month of a day number in the proleptic Gregorian
calendar (day 0 is 1970-01-01). -/
def civil (z : Int) : Int × Nat × Nat :=
  let z := z + 719468
  let era := z / 146097
  let doe := (z % 146097).toNat
  let yoe := (doe - doe / 1460 + doe / 36524 - doe / 146096) / 365
  let doy := doe - (365 * yoe + yoe / 4 - yoe / 100)
  let mp := (5 * doy + 2) / 153
  let d := doy - (153 * mp + 2) / 5 + 1
  let m := if mp < 10 then mp + 3 else mp - 9
  let y := (yoe : Int) + era * 400
  (if m ≤ 2 then y + 1 else y, m, d)

/-- A natural number in decimal, padded with zeros on the left to a width. -/
def pad (width n : Nat) : String :=
  "".pushn '0' (width - (toString n).length) ++ toString n

/-- The year of `toISOString()`: four digits from 0 to 9999, otherwise a sign
and six digits. -/
def isoYear (y : Int) : String :=
  if 0 ≤ y ∧ y ≤ 9999 then pad 4 y.toNat
  else if y < 0 then "-" ++ pad 6 (-y).toNat
  else "+" ++ pad 6 y.toNat

/-- The expression `visitDate.toISOString().split('T')[0]`: the date part
`YYYY-MM-DD` of the ISO rendering. -/
def isoDate (t : Int) : String :=
  let ymd := civil (day t)
  isoYear ymd.1 ++ "-" ++ pad 2 ymd.2.1 ++ "-" ++ pad 2 ymd.2.2

end Date

/-- The function `routeVisitor({ geoState, timestamp })` as a function of the
store: the decision and the store after the call.  `Except.error` is a thrown
exception. -/
def routeVisitor (js : Builtins) (redis : Redis) (visit : Visit) :
    Except String (Decision × Redis) :=
  let visitDate := visit.timestamp
  let visitHour := toString (Date.getUTCHours visitDate)
  let dateKey := Date.isoDate visitDate
  let targets := getAllTargets redis
  if targets.length = 0 then Except.ok (Decision.reject, redis)
  else
    let eligibleTargets := filterEligibleTargets js redis targets visit.geoState visitHour dateKey
    if eligibleTargets.length = 0 then Except.ok (Decision.reject, redis)
    else
      match selectBestTarget js eligibleTargets with
      | none => Except.error "TypeError: Reduce of empty array with no initial value"
      | some bestTarget =>
        let redis := incrementDailyAccepts redis bestTarget.id dateKey
        Except.ok
          (Decision.accept { id := bestTarget.id, url := bestTarget.url, value := bestTarget.value },
            redis)

/-- The hour of day that `routeVisitor` derives from a visit:
`visitDate.getUTCHours().toString()`. -/
def Visit.hour (visit : Visit) : String := toString (Date.getUTCHours visit.timestamp)

/-- The date key that `routeVisitor` derives from a visit:
`visitDate.toISOString().split('T')[0]`. -/
def Visit.dateKey (visit : Visit) : String := Date.isoDate visit.timestamp

/-- The quota test that `filterEligibleTargets` applies to a target:
`accepts < parseInt(target.maxAcceptsPerDay, 10)`. -/
def hasQuota (js : Builtins) (redis : Redis) (target : Target) (dateKey : String) : Bool :=
  JSNumber.lt (getDailyAccepts redis target.id dateKey) (js.parseInt target.maxAcceptsPerDay)

/-- Calls of `routeVisitor` made one after the other, each on the store the
previous one left: the decisions in order and the final store. -/
def routeVisitors (js : Builtins) (redis : Redis) :
    List Visit → Except String (List Decision × Redis)
  | [] => Except.ok ([], redis)
  | visit :: rest =>
    match routeVisitor js redis visit with
    | Except.error e => Except.error e
    | Except.ok (decision, redis) =>
      match routeVisitors js redis rest with
      | Except.error e => Except.error e
      | Except.ok (decisions, redis) => Except.ok (decision :: decisions, redis)

/-- A date key of the form `YYYY-MM-DD`: ten characters, digits around two
hyphens. -/
def isDateKey (date : String) : Bool :=
  match date.toList with
  | [y1, y2, y3, y4, h1, m1, m2, h2, d1, d2] =>
    y1.isDigit && y2.isDigit && y3.isDigit && y4.isDigit && h1 == '-' &&
      m1.isDigit && m2.isDigit && h2 == '-' && d1.isDigit && d2.isDigit
  | _ => false

/-- The quota invariant of a store for a list of targets: no counter of a
target on a UTC date exceeds the ceiling of the target. -/
def QuotaInv (js : Builtins) (targets : List Target) (redis : Redis) : Prop :=
  ∀ t ∈ targets, ∀ N : Nat, js.parseInt t.maxAcceptsPerDay = JSNumber.ofNat N →
    ∀ ts : Int, (redis.counters (getAcceptsKey t.id (Date.isoDate ts))).getD 0 ≤ N

/-! ## `route-service.js` on a client whose commands may fail -/

/-- A command that `route-service.js` sends, directly or through
`getAllTargets`. -/
inductive RedisCommand where
  | smembers (key : String)
  | get (key : String)
  | incr (key : String)
  | expire (key : String) (seconds : Nat)
  deriving DecidableEq, Repr

/-- Modelled from the spec: the failures of the missing Redis client (an
unreachable Repository or Counter Store).  `fails c` is the error with which
the promise of command `c` rejects, `none` when the command is carried out.  A
command that fails leaves the store as it is. -/
structure Faults where
  fails : RedisCommand → Option String

/-- The client on which no command fails. -/
def Faults.none : Faults := { fails := fun _ => Option.none }

namespace Faulty

/-- The call `smembersAsync(key)` of `target-service.js`. -/
def smembersAsync (faults : Faults) (redis : Redis) (key : String) :
    Except String (List String) :=
  match faults.fails (RedisCommand.smembers key) with
  | some e => Except.error e
  | none => Except.ok (redis.smembers key)

/-- The call `getAsync(key)` of `target-service.js`, with `JSON.parse` applied
to a reply other than `null`. -/
def getRecordAsync (faults : Faults) (redis : Redis) (key : String) :
    Except String (Option Target) :=
  match faults.fails (RedisCommand.get key) with
  | some e => Except.error e
  | none => Except.ok (redis.getRecord key)

/-- The call `getAsync(key)` of `route-service.js`. -/
def getAsync (faults : Faults) (redis : Redis) (key : String) : Except String (Option Nat) :=
  match faults.fails (RedisCommand.get key) with
  | some e => Except.error e
  | none => Except.ok (redis.get key)

/-- The function `Promise.all`: the values in order, or the first rejection
(the replies of one connection come in the order of the commands). -/
def promiseAll {α : Type} : List (Except String α) → Except String (List α)
  | [] => Except.ok []
  | Except.error e :: _ => Except.error e
  | Except.ok a :: rest =>
    match promiseAll rest with
    | Except.error e => Except.error e
    | Except.ok as => Except.ok (a :: as)

/-- The function `getAllTargets()`. -/
def getAllTargets (faults : Faults) (redis : Redis) : Except String (List Target) :=
  match smembersAsync faults redis TARGET_SET_KEY with
  | Except.error e => Except.error e
  | Except.ok ids =>
    if ids.length = 0 then Except.ok []
    else
      match promiseAll (ids.map (fun id => getRecordAsync faults redis (getTargetKey id))) with
      | Except.error e => Except.error e
      | Except.ok targets => Except.ok (targets.filterMap (fun t => t))

/-- The function `getDailyAccepts(targetId, date)`. -/
def getDailyAccepts (faults : Faults) (redis : Redis) (targetId date : String) :
    Except String JSNumber :=
  match getAsync faults redis (getAcceptsKey targetId date) with
  | Except.error e => Except.error e
  | Except.ok none => Except.ok (JSNumber.ofNat 0)
  | Except.ok (some count) => Except.ok (JSNumber.ofNat count)

/-- The function `incrementDailyAccepts(targetId, date)`: the outcome and the
store it leaves. -/
def incrementDailyAccepts (faults : Faults) (redis : Redis) (targetId date : String) :
    Except String Unit × Redis :=
  let key := getAcceptsKey targetId date
  match faults.fails (RedisCommand.incr key) with
  | some e => (Except.error e, redis)
  | none =>
    let redis := redis.incr key
    match faults.fails (RedisCommand.expire key EXPIRE_SECONDS) with
    | some e => (Except.error e, redis)
    | none => (Except.ok (), redis.expire key EXPIRE_SECONDS)

/-- The loop of `filterEligibleTargets` over the targets still to visit, with
the list `eligible` built so far. -/
def filterLoop (faults : Faults) (js : Builtins) (redis : Redis)
    (geoState visitHour dateKey : String) : List Target → List Target → Except String (List Target)
  | [], eligible => Except.ok eligible
  | target :: rest, eligible =>
    if !(isTargetEligible js target geoState visitHour) then
      filterLoop faults js redis geoState visitHour dateKey rest eligible
    else
      match getDailyAccepts faults redis target.id dateKey with
      | Except.error e => Except.error e
      | Except.ok accepts =>
        if JSNumber.lt accepts (js.parseInt target.maxAcceptsPerDay) then
          filterLoop faults js redis geoState visitHour dateKey rest (eligible ++ [target])
        else filterLoop faults js redis geoState visitHour dateKey rest eligible

/-- The function `filterEligibleTargets(targets, geoState, visitHour, dateKey)`. -/
def filterEligibleTargets (faults : Faults) (js : Builtins) (redis : Redis)
    (targets : List Target) (geoState visitHour dateKey : String) : Except String (List Target) :=
  filterLoop faults js redis geoState visitHour dateKey targets []

/-- The function `routeVisitor({ geoState, timestamp })`: what the promise
settles to, a decision or the error it rejects with, and the store the call
leaves. -/
def routeVisitor (faults : Faults) (js : Builtins) (redis : Redis) (visit : Visit) :
    Except String Decision × Redis :=
  let visitDate := visit.timestamp
  let visitHour := toString (Date.getUTCHours visitDate)
  let dateKey := Date.isoDate visitDate
  match getAllTargets faults redis with
  | Except.error e => (Except.error e, redis)
  | Except.ok targets =>
    if targets.length = 0 then (Except.ok Decision.reject, redis)
    else
      match filterEligibleTargets faults js redis targets visit.geoState visitHour dateKey with
      | Except.error e => (Except.error e, redis)
      | Except.ok eligibleTargets =>
        if eligibleTargets.length = 0 then (Except.ok Decision.reject, redis)
        else
          match selectBestTarget js eligibleTargets with
          | none =>
            (Except.error "TypeError: Reduce of empty array with no initial value", redis)
          | some bestTarget =>
            match incrementDailyAccepts faults redis bestTarget.id dateKey with
            | (Except.error e, redis) => (Except.error e, redis)
            | (Except.ok _, redis) =>
              (Except.ok (Decision.accept
                { id := bestTarget.id, url := bestTarget.url, value := bestTarget.value }),
                redis)

end Faulty

/-! ## Request bodies and the controllers -/

/-- A member of a request body after `JSON.parse`, as far as the controllers
and `createTarget` inspect it.  `undefined` is a member that is missing, a
number is given by the text `ToString` renders it as (0 is `0`), and `object`
is an array or object with its `ToString` text. -/
inductive JSValue where
  | undefined
  | null
  | bool (b : Bool)
  | number (text : String)
  | string (s : String)
  | object (text : String)
  deriving DecidableEq, Repr

namespace JSValue

/-- The conversion `ToBoolean`, which `!val` and `val || other` apply: falsy are
`undefined`, `null`, `false`, the numbers 0 and NaN and the empty string. -/
def truthy : JSValue → Bool
  | undefined => false
  | null => false
  | bool b => b
  | number text => !(text == "0" || text == "NaN")
  | string s => !(s == "")
  | object _ => true

/-- The conversion `ToString`, which `parseFloat`, `parseInt` and template
literals apply to their argument. -/
def toText : JSValue → String
  | undefined => "undefined"
  | null => "null"
  | bool true => "true"
  | bool false => "false"
  | number text => text
  | string s => s
  | object text => text

end JSValue

/-- The function `isFinite(x)` on a Number. -/
def JSNumber.isFinite : JSNumber → Bool
  | JSNumber.fin _ => true
  | _ => false

/-- The function `Number.isInteger(x)`. -/
def JSNumber.isInteger : JSNumber → Bool
  | JSNumber.fin q => decide (q.den = 1)
  | _ => false

/-- The function `isNumeric(val)` of `target-controller.js`. -/
def isNumeric (js : Builtins) (val : JSValue) : Bool :=
  let num := js.parseFloat val.toText
  num.isNumber && num.isFinite && JSNumber.ge num (JSNumber.ofNat 0)

/-- The function `isInteger(val)` of `target-controller.js`. -/
def isInteger (js : Builtins) (val : JSValue) : Bool :=
  let num := js.parseFloat val.toText
  num.isInteger && num.isNumber && JSNumber.ge num (JSNumber.ofNat 0)

/-- Modelled from the spec: the module `utils/http-error.js` is not among the
sources.  Going by its call sites and by the tests, `throwError(message,
statusCode)` throws an error that carries both; an error thrown elsewhere has no
status code. -/
structure ThrownError where
  message : String
  statusCode : Option Nat
  deriving DecidableEq, Repr

/-- Modelled from the spec: the function `throwError(message, statusCode)` of the
missing module `utils/http-error.js`, as the error it throws (the name
`throwError` is taken in Lean). -/
def throwHttpError (message : String) (statusCode : Nat) : ThrownError :=
  { message := message, statusCode := some statusCode }

/-- The status code that `onError` of `server.js` answers with:
`err.statusCode || 500`. -/
def onError (err : ThrownError) : Nat :=
  match err.statusCode with
  | none => 500
  | some code => if code = 0 then 500 else code

/-- The body of a request to the target controllers: the members the
controllers read, and the `accept` member when it is a well-formed rule set. -/
structure TargetBody where
  id : JSValue
  url : JSValue
  value : JSValue
  maxAcceptsPerDay : JSValue
  accept : Option Accept
  deriving DecidableEq, Repr

/-- The body as the argument `targetData` of the service `createTarget`: a falsy
`id` counts as missing there, and the members are kept as their text. -/
def TargetBody.toTargetData (body : TargetBody) : TargetData :=
  { id := if body.id.truthy then some body.id.toText else none
    url := body.url.toText
    value := body.value.toText
    maxAcceptsPerDay := body.maxAcceptsPerDay.toText
    accept := body.accept }

/-- The body as the argument `updates` of the service `updateTarget`: the
members that are there, kept as their text. -/
def TargetBody.toTargetUpdates (body : TargetBody) : TargetUpdates :=
  { id := if body.id = JSValue.undefined then none else some body.id.toText
    url := if body.url = JSValue.undefined then none else some body.url.toText
    value := if body.value = JSValue.undefined then none else some body.value.toText
    maxAcceptsPerDay :=
      if body.maxAcceptsPerDay = JSValue.undefined then none
      else some body.maxAcceptsPerDay.toText
    accept := body.accept }

namespace TargetController

/-- The controller `createTarget(req, res)`: the error thrown or the target
sent, and the store after the request. -/
def createTarget (js : Builtins) (cuid : String) (redis : Redis) (body : TargetBody) :
    Except ThrownError Target × Redis :=
  if !body.url.truthy || !body.value.truthy || !body.maxAcceptsPerDay.truthy then
    (Except.error
      (throwHttpError "Missing required fields: url, value, and maxAcceptsPerDay" 400), redis)
  else if !(isNumeric js body.value) then
    (Except.error (throwHttpError "Field \"value\" must be a non-negative number" 400), redis)
  else if !(isInteger js body.maxAcceptsPerDay) then
    (Except.error
      (throwHttpError "Field \"maxAcceptsPerDay\" must be a non-negative integer" 400), redis)
  else
    let created := PingTree.createTarget cuid redis body.toTargetData
    (Except.ok created.1, created.2)

/-- The controller `getTargetById(req, res, opts)`, with `id` the path
parameter. -/
def getTargetById (redis : Redis) (id : String) : Except ThrownError Target × Redis :=
  if id = "" then (Except.error (throwHttpError "Target ID is required" 400), redis)
  else
    match PingTree.getTargetById redis id with
    | none => (Except.error (throwHttpError "Target not found" 404), redis)
    | some target => (Except.ok target, redis)

/-- The controller `updateTarget(req, res, opts)`, with `id` the path
parameter. -/
def updateTarget (js : Builtins) (redis : Redis) (id : String) (updateData : TargetBody) :
    Except ThrownError Target × Redis :=
  if id = "" then (Except.error (throwHttpError "Target ID is required" 400), redis)
  else if updateData.value ≠ JSValue.undefined ∧ !(isNumeric js updateData.value) then
    (Except.error (throwHttpError "Field \"value\" must be a non-negative number" 400), redis)
  else if updateData.maxAcceptsPerDay ≠ JSValue.undefined ∧
      !(isInteger js updateData.maxAcceptsPerDay) then
    (Except.error
      (throwHttpError "Field \"maxAcceptsPerDay\" must be a non-negative integer" 400), redis)
  else
    match PingTree.updateTarget redis id updateData.toTargetUpdates with
    | (none, redis) => (Except.error (throwHttpError "Target not found" 404), redis)
    | (some target, redis) => (Except.ok target, redis)

end TargetController

/-- The body of a request to the route controller. -/
structure VisitorData where
  geoState : JSValue
  timestamp : JSValue
  deriving DecidableEq, Repr

/-- The function `isValidTimestamp(str)` of `route-controller.js`.  The argument
`newDate` gives the time value of `new Date(str)`, `none` for an invalid date
(`getTime()` is then NaN). -/
def isValidTimestamp (newDate : JSValue → Option Int) (str : JSValue) : Bool :=
  (newDate str).isSome

namespace RouteController

/-- The controller `routeVisitor(req, res)`.  The argument `routeService` is the
function `routeService.routeVisitor` that the controller calls with the body:
what its promise settles to and the store it leaves.  An error of that call is
thrown on as it is. -/
def routeVisitor (newDate : JSValue → Option Int)
    (routeService : VisitorData → Redis → Except String Decision × Redis)
    (redis : Redis) (visitorData : VisitorData) : Except ThrownError Decision × Redis :=
  if !visitorData.geoState.truthy || !visitorData.timestamp.truthy then
    (Except.error (throwHttpError "Missing required fields: geoState and timestamp" 400), redis)
  else if !(isValidTimestamp newDate visitorData.timestamp) then
    (Except.error
      (throwHttpError "Invalid timestamp format. Must be a valid date string." 400), redis)
  else
    match routeService visitorData redis with
    | (Except.error e, redis) => (Except.error { message := e, statusCode := none }, redis)
    | (Except.ok decision, redis) => (Except.ok decision, redis)

end RouteController

/-- The function `routeService.routeVisitor` on a body whose `geoState` is a
string and whose timestamp is a valid date; on another body the call is taken
to throw (the engine throws as soon as it lower-cases a `geoState` that is not
a string). -/
def routeServiceOn (js : Builtins) (newDate : JSValue → Option Int) (faults : Faults)
    (visitorData : VisitorData) (redis : Redis) : Except String Decision × Redis :=
  match visitorData.geoState, newDate visitorData.timestamp with
  | JSValue.string geoState, some t =>
    Faulty.routeVisitor faults js redis { geoState := geoState, timestamp := t }
  | _, _ => (Except.error "TypeError: geoState.toLowerCase is not a function", redis)

/-! ## `isTargetEligible` on a record whose `accept` member is any JSON value -/

namespace Raw

/-- A member of a `$in` array, as far as `isTargetEligible` inspects it: a
string, `null`, or another value (a number, a boolean, an array, an object). -/
inductive Item where
  | string (s : String)
  | nullish
  | other
  deriving DecidableEq, Repr

/-- The `$in` member of a rule group: missing or falsy, an array, a string that
is not empty, or another truthy value (a number, `true`, an object). -/
inductive InValue where
  | falsy
  | array (items : List Item)
  | string (s : String)
  | other
  deriving DecidableEq, Repr

/-- The member `accept.geoState` or `accept.hour`: `undefined` or `null`, or a
value with its `$in` member (`falsy` for a value that has none). -/
inductive Group where
  | nullish
  | value (in_ : InValue)
  deriving DecidableEq, Repr

/-- The member `accept` of a stored record: missing, `null`, or a value with its
`geoState` and `hour` members (`nullish` for a value that has none). -/
inductive AcceptValue where
  | undefined
  | null
  | value (geoState hour : Group)
  deriving DecidableEq, Repr

/-- The expression `group?.$in`. -/
def Group.inValue : Group → InValue
  | Group.nullish => InValue.falsy
  | Group.value v => v

/-- The call `states.some((state) => state.toLowerCase() === geoState.toLowerCase())`
on an array: the callback throws on a member or a `geoState` that has no method
`toLowerCase`. -/
def someState (js : Builtins) (geoState : JSValue) : List Item → Except String Bool
  | [] => Except.ok false
  | Item.string state :: rest =>
    match geoState with
    | JSValue.string g =>
      if js.toLowerCase state == js.toLowerCase g then Except.ok true
      else someState js geoState rest
    | _ => Except.error "TypeError: geoState.toLowerCase is not a function"
  | Item.nullish :: _ =>
    Except.error "TypeError: Cannot read properties of null (reading toLowerCase)"
  | Item.other :: _ => Except.error "TypeError: state.toLowerCase is not a function"

/-- The function `isTargetEligible(target, geoState, visitHour)` on a record with
the given `accept` member; `Except.error` is a thrown `TypeError`. -/
def isTargetEligible (js : Builtins) (accept : AcceptValue) (geoState : JSValue)
    (visitHour : String) : Except String Bool :=
  match accept with
  | AcceptValue.null =>
    Except.error "TypeError: Cannot read properties of null (reading geoState)"
  | AcceptValue.undefined => Except.ok true
  | AcceptValue.value geo hour =>
    let geoCheck : Except String Bool :=
      match geo.inValue with
      | InValue.falsy => Except.ok true
      | InValue.array states => someState js geoState states
      | InValue.string s =>
        if s = "" then Except.ok true
        else Except.error "TypeError: accept.geoState.$in.some is not a function"
      | InValue.other => Except.error "TypeError: accept.geoState.$in.some is not a function"
    match geoCheck with
    | Except.error e => Except.error e
    | Except.ok geoOk =>
      let hourCheck : Except String Bool :=
        match hour.inValue with
        | InValue.falsy => Except.ok true
        | InValue.array hours => Except.ok (hours.contains (Item.string visitHour))
        | InValue.string s =>
          if s = "" then Except.ok true
          else Except.ok (s.toList.tails.any (fun t => visitHour.toList.isPrefixOf t))
        | InValue.other =>
          Except.error "TypeError: accept.hour.$in.includes is not a function"
      match hourCheck with
      | Except.error e => Except.error e
      | Except.ok hourOk => Except.ok (geoOk && hourOk)

/-- The member `accept` of the record that `createTarget` builds:
`targetData.accept || {}`. -/
def createdAccept : AcceptValue → AcceptValue
  | AcceptValue.undefined => AcceptValue.value Group.nullish Group.nullish
  | AcceptValue.null => AcceptValue.value Group.nullish Group.nullish
  | accept => accept

/-- The member `accept` of the record that `updateTarget` builds by
`{ ...existing, ...updates }`: that of `updates` whenever the body has the
member, `null` included. -/
def updatedAccept (existing updates : AcceptValue) : AcceptValue :=
  match updates with
  | AcceptValue.undefined => existing
  | accept => accept

/-- A well-formed rule group as a JSON value. -/
def ofRuleGroup : Option RuleGroup → Group
  | none => Group.nullish
  | some g =>
    match g.in_ with
    | none => Group.value InValue.falsy
    | some values => Group.value (InValue.array (values.map Item.string))

/-- A well-formed `accept` member as a JSON value. -/
def ofAccept : Option Accept → AcceptValue
  | none => AcceptValue.undefined
  | some a => AcceptValue.value (ofRuleGroup a.geoState) (ofRuleGroup a.hour)

end Raw

/-! ## Calls of `routeVisitor` that overlap in time -/

/-- A call of `routeVisitor` at one of the points where it can be suspended:
before the fetch of the targets, in the loop of `filterEligibleTargets` before
the target at the head of `rest`, before the INCR, before the EXPIRE, or
settled. -/
inductive Call where
  | fetching (visit : Visit)
  | filtering (visit : Visit) (rest eligible : List Target)
  | incrementing (visit : Visit) (bestTarget : Target)
  | expiring (visit : Visit) (bestTarget : Target)
  | settled (outcome : Except String Decision)

namespace Call

/-- One step of a call on the store: the code of `routeVisitor` from one
suspension point to the next, with the command it sends carried out.  The fetch
of the targets is one step, each turn of the loop is one step, and so is the
choice of the best target. -/
def step (js : Builtins) (call : Call) (redis : Redis) : Call × Redis :=
  match call with
  | fetching visit =>
    let targets := getAllTargets redis
    if targets.length = 0 then (settled (Except.ok Decision.reject), redis)
    else (filtering visit targets [], redis)
  | filtering visit (target :: rest) eligible =>
    if !(isTargetEligible js target visit.geoState visit.hour) then
      (filtering visit rest eligible, redis)
    else
      let accepts := getDailyAccepts redis target.id visit.dateKey
      if JSNumber.lt accepts (js.parseInt target.maxAcceptsPerDay) then
        (filtering visit rest (eligible ++ [target]), redis)
      else (filtering visit rest eligible, redis)
  | filtering visit [] eligible =>
    if eligible.length = 0 then (settled (Except.ok Decision.reject), redis)
    else
      match selectBestTarget js eligible with
      | none =>
        (settled (Except.error "TypeError: Reduce of empty array with no initial value"), redis)
      | some bestTarget => (incrementing visit bestTarget, redis)
  | incrementing visit bestTarget =>
    (expiring visit bestTarget, redis.incr (getAcceptsKey bestTarget.id visit.dateKey))
  | expiring visit bestTarget =>
    (settled (Except.ok (Decision.accept
        { id := bestTarget.id, url := bestTarget.url, value := bestTarget.value })),
      redis.expire (getAcceptsKey bestTarget.id visit.dateKey) EXPIRE_SECONDS)
  | settled outcome => (settled outcome, redis)

/-- A call alone on the store, for a number of steps. -/
def run (js : Builtins) : Nat → Call → Redis → Call × Redis
  | 0, call, redis => (call, redis)
  | n + 1, call, redis =>
    let next := step js call redis
    run js n next.1 next.2

end Call

/-- Two calls on one store, interleaved by a schedule: at each entry the first
call takes a step (`false`) or the second one does (`true`). -/
def interleave (js : Builtins) : List Bool → Call → Call → Redis → Call × Call × Redis
  | [], first, second, redis => (first, second, redis)
  | false :: schedule, first, second, redis =>
    let next := Call.step js first redis
    interleave js schedule next.1 second next.2
  | true :: schedule, first, second, redis =>
    let next := Call.step js second redis
    interleave js schedule first next.1 next.2

/-! ## A concrete choice of the built-ins -/

namespace Ref

/-- White space skipped in front of a numeric literal. -/
def isWhite (c : Char) : Bool := c == ' ' || c == '\t' || c == '\n' || c == '\r'

/-- The value of a run of decimal digits. -/
def digitsValue (ds : List Char) : Nat :=
  ds.foldl (fun acc c => 10 * acc + (c.toNat - '0'.toNat)) 0

/-- An optional sign in front of a literal: whether it is a minus, and the rest. -/
def takeSign : List Char → Bool × List Char
  | '-' :: rest => (true, rest)
  | '+' :: rest => (false, rest)
  | cs => (false, cs)

/-- ASCII rendering of `toLowerCase`. -/
def toLowerCase (s : String) : String := String.mk (s.toList.map Char.toLower)

/-- Decimal rendering of `parseInt(s, 10)`: leading white space, an optional
sign, then the longest run of digits; `NaN` when that run is empty. -/
def parseInt (s : String) : JSNumber :=
  let sc := takeSign (s.toList.dropWhile isWhite)
  let ds := sc.2.takeWhile Char.isDigit
  if ds.isEmpty then JSNumber.nan
  else if sc.1 then JSNumber.fin (mkRat (-(digitsValue ds : Int)) 1)
  else JSNumber.fin (mkRat (digitsValue ds : Int) 1)

/-- The exponent part of a decimal literal, 0 when there is none. -/
def exponent : List Char → Int
  | c :: rest =>
    if c == 'e' || c == 'E' then
      let sc := takeSign rest
      let ds := sc.2.takeWhile Char.isDigit
      if ds.isEmpty then 0
      else if sc.1 then -(digitsValue ds : Int)
      else (digitsValue ds : Int)
    else 0
  | [] => 0

/-- Decimal rendering of `parseFloat(s)`: leading white space, an optional sign,
then the longest prefix that is a decimal literal, with its exact value (not
rounded to binary64); `NaN` when there is no such prefix. -/
def parseFloat (s : String) : JSNumber :=
  let sc := takeSign (s.toList.dropWhile isWhite)
  if "Infinity".toList.isPrefixOf sc.2 then
    (if sc.1 then JSNumber.negInf else JSNumber.posInf)
  else
    let intDs := sc.2.takeWhile Char.isDigit
    let rest := sc.2.dropWhile Char.isDigit
    let fracDs := match rest with
      | '.' :: r => r.takeWhile Char.isDigit
      | _ => []
    let rest := match rest with
      | '.' :: r => r.dropWhile Char.isDigit
      | _ => rest
    if intDs.isEmpty && fracDs.isEmpty then JSNumber.nan
    else
      let e := exponent rest
      let m : Int := digitsValue (intDs ++ fracDs)
      let m := if sc.1 then -m else m
      JSNumber.fin (mkRat (m * 10 ^ e.toNat) (10 ^ (fracDs.length + (-e).toNat)))

/-- The day number of a date of the proleptic Gregorian calendar. -/
def daysFromCivil (y : Int) (m d : Nat) : Int :=
  let y := if m ≤ 2 then y - 1 else y
  let era := y / 400
  let yoe := y - era * 400
  let mp : Int := if m > 2 then (m : Int) - 3 else (m : Int) + 9
  let doy := (153 * mp + 2) / 5 + (d : Int) - 1
  let doe := yoe * 365 + yoe / 4 - yoe / 100 + doy
  era * 146097 + doe - 719468

/-- A rendering of `new Date(value)` for the strings of the form
`YYYY-MM-DDTHH:MM:SS.sssZ` with every field in range: the time value in
milliseconds.  Every other value is taken as an invalid date. -/
def newDate : JSValue → Option Int
  | JSValue.string s =>
    match s.toList with
    | [y1, y2, y3, y4, '-', m1, m2, '-', d1, d2, 'T', h1, h2, ':', n1, n2, ':', s1, s2, '.',
        f1, f2, f3, 'Z'] =>
      if [y1, y2, y3, y4, m1, m2, d1, d2, h1, h2, n1, n2, s1, s2, f1, f2, f3].all Char.isDigit
      then
        let year := digitsValue [y1, y2, y3, y4]
        let month := digitsValue [m1, m2]
        let day := digitsValue [d1, d2]
        let hour := digitsValue [h1, h2]
        let minute := digitsValue [n1, n2]
        let second := digitsValue [s1, s2]
        let milli := digitsValue [f1, f2, f3]
        if 1 ≤ month ∧ month ≤ 12 ∧ 1 ≤ day ∧ day ≤ 31 ∧ hour < 24 ∧ minute < 60 ∧ second < 60
        then
          some (daysFromCivil year month day * 86400000
            + ((hour * 3600000 + minute * 60000 + second * 1000 + milli : Nat) : Int))
        else none
      else none
    | _ => none
  | _ => none

end Ref

/-- A concrete, executable choice of the built-ins. -/
def refBuiltins : Builtins :=
  { toLowerCase := Ref.toLowerCase, parseFloat := Ref.parseFloat, parseInt := Ref.parseInt }

/-! ## Sample data, taken from `test/endpoints.js` -/

namespace Sample

/-- The target of the test that rejects a visitor at the wrong hour. -/
def rejectHour : Target :=
  { id := "t-hour", url := "http://reject-hour.com", value := "0.75", maxAcceptsPerDay := "8",
    accept := some { geoState := some { in_ := some ["ca"] },
                     hour := some { in_ := some ["13", "14", "15"] } } }

/-- The target of the test without accept criteria, as `createTarget` stores
it: with the empty rule set. -/
def acceptAll : Target :=
  { id := "t-all", url := "http://accept-all.com", value := "1.00", maxAcceptsPerDay := "10",
    accept := some Accept.empty }

/-- The target of the case-insensitive matching test, without its hour group. -/
def upperCase : Target :=
  { id := "t-case", url := "http://case-insensitive.com", value := "1.25",
    maxAcceptsPerDay := "5",
    accept := some { geoState := some { in_ := some ["CA", "NY"] }, hour := none } }

/-- A target valued 9.50, listed first. -/
def nineFifty : Target :=
  { id := "t-950", url := "http://nine-fifty.com", value := "9.50", maxAcceptsPerDay := "10",
    accept := none }

/-- A target valued 10.00, listed second. -/
def tenFlat : Target :=
  { id := "t-1000", url := "http://ten.com", value := "10.00", maxAcceptsPerDay := "10",
    accept := none }

/-- A second target valued 10.00, listed after `tenFlat`. -/
def tenAgain : Target :=
  { id := "t-1000b", url := "http://ten-again.com", value := "10.00", maxAcceptsPerDay := "10",
    accept := none }

/-- The target of the daily-limit test: two accepts per day. -/
def limited : Target :=
  { id := "t-lim", url := "http://limited.com", value := "1.00", maxAcceptsPerDay := "2",
    accept := some { geoState := some { in_ := some ["ca"] },
                     hour := some { in_ := some ["14"] } } }

/-- A store holding `limited` alone, already accepted twice on 2018-07-19. -/
def limitedFull : Redis :=
  { Redis.empty with
    sets := fun k => if k = "targets" then ["t-lim"] else []
    records := fun k => if k = "target:t-lim" then some limited else none
    counters := fun k => if k = "target:t-lim:accepts:2018-07-19" then some 2 else none }

/-- A store holding `limited` alone, accepted once on 2018-07-19. -/
def limitedOnce : Redis :=
  { limitedFull with
    counters := fun k => if k = "target:t-lim:accepts:2018-07-19" then some 1 else none }

/-- A store holding `rejectHour` alone, with no counter. -/
def rejectHourStore : Redis :=
  { Redis.empty with
    sets := fun k => if k = "targets" then ["t-hour"] else []
    records := fun k => if k = "target:t-hour" then some rejectHour else none }

/-- The visit of the tests: `ca` at 2018-07-19T14:28:59.513Z. -/
def visit14 : Visit := { geoState := "ca", timestamp := 1532010539513 }

/-- The visit of the wrong-hour test: `ca` at 2018-07-19T16:28:59.513Z. -/
def visit16 : Visit := { geoState := "ca", timestamp := 1532017739513 }

/-- The target of the daily-reset test: one accept per day. -/
def dailyReset : Target :=
  { id := "t-day", url := "http://daily-reset.com", value := "1.00", maxAcceptsPerDay := "1",
    accept := some { geoState := some { in_ := some ["ca"] },
                     hour := some { in_ := some ["14"] } } }

/-- A store holding `dailyReset` alone, with no counter. -/
def dailyResetStore : Redis :=
  { Redis.empty with
    sets := fun k => if k = "targets" then ["t-day"] else []
    records := fun k => if k = "target:t-day" then some dailyReset else none }

/-- The second visit of the daily-reset test: `ca` at 2018-07-20T14:28:59.513Z. -/
def visitNextDay : Visit := { geoState := "ca", timestamp := 1532096939513 }

/-- The visit of the midnight test: `ca` at 2018-07-19T00:28:59.513Z. -/
def visitMidnight : Visit := { geoState := "ca", timestamp := 1531960139513 }

/-- An update body that carries an id of its own and a new value. -/
def updateWithId : TargetUpdates :=
  { id := some "other-id", url := none, value := some "3.00", maxAcceptsPerDay := none,
    accept := none }

/-- A create body that carries the id of the stored target `limited`. -/
def createWithId : TargetData :=
  { id := some "t-lim", url := "http://taken.com", value := "9.00", maxAcceptsPerDay := "1",
    accept := none }

/-- A create body without an id, as the tests send it. -/
def createPlain : TargetData :=
  { id := none, url := "http://accept.com", value := "1.00", maxAcceptsPerDay := "10",
    accept := none }

/-- A store holding `limited` and `dailyReset`, with no counter. -/
def twoTargets : Redis :=
  { Redis.empty with
    sets := fun k => if k = "targets" then ["t-lim", "t-day"] else []
    records := fun k =>
      if k = "target:t-lim" then some limited
      else if k = "target:t-day" then some dailyReset
      else none }

/-- A client on which the read of the counter of `limited` on 2018-07-19 fails. -/
def counterDown : Faults :=
  { fails := fun c =>
      if c = RedisCommand.get "target:t-lim:accepts:2018-07-19" then some "ECONNRESET"
      else none }

/-- A client on which every command fails. -/
def redisDown : Faults := { fails := fun _ => some "ECONNREFUSED" }

/-- The create body of the zero-value test, with the value sent as the JSON
number 0 instead of the string. -/
def zeroNumberBody : TargetBody :=
  { id := JSValue.undefined, url := JSValue.string "https://example.com",
    value := JSValue.number "0", maxAcceptsPerDay := JSValue.string "10", accept := none }

/-- The create body of the zero-value test, as the test sends it. -/
def zeroStringBody : TargetBody :=
  { id := JSValue.undefined, url := JSValue.string "https://example.com",
    value := JSValue.string "0", maxAcceptsPerDay := JSValue.string "10", accept := none }

/-- The body of the route tests: `ca` at 2018-07-19T14:28:59.513Z. -/
def visitorData14 : VisitorData :=
  { geoState := JSValue.string "ca", timestamp := JSValue.string "2018-07-19T14:28:59.513Z" }

/-- The body of the invalid-timestamp test. -/
def visitorDataInvalid : VisitorData :=
  { geoState := JSValue.string "ca", timestamp := JSValue.string "invalid-timestamp" }

/-- A create body whose maxAcceptsPerDay is written with an exponent. -/
def exponentBody : TargetBody :=
  { id := JSValue.undefined, url := JSValue.string "https://example.com",
    value := JSValue.string "1.00", maxAcceptsPerDay := JSValue.string "1e3", accept := none }

/-- The target that the create controller stores for `exponentBody`. -/
def exponentTarget : Target :=
  { id := "cuid-1", url := "https://example.com", value := "1.00", maxAcceptsPerDay := "1e3",
    accept := some Accept.empty }

/-- A store in which `exponentTarget` has been accepted once on 2018-07-19. -/
def exponentOnce : Redis :=
  { Redis.empty with
    sets := fun k => if k = "targets" then ["cuid-1"] else []
    records := fun k => if k = "target:cuid-1" then some exponentTarget else none
    counters := fun k => if k = "target:cuid-1:accepts:2018-07-19" then some 1 else none }

/-- A create body that carries an id made of another id, the infix of the
counter keys and a date. -/
def counterLikeId : TargetData :=
  { id := some "t-lim:accepts:2018-07-19", url := "http://taken.com", value := "9.00",
    maxAcceptsPerDay := "1", accept := none }

/-- An update body with no member that the update controller checks: the body
`{ "accept": null }` as far as the controller reads it. -/
def acceptOnlyBody : TargetBody :=
  { id := JSValue.undefined, url := JSValue.undefined, value := JSValue.undefined,
    maxAcceptsPerDay := JSValue.undefined, accept := none }

/-- The create body of the negative-value test. -/
def negativeValueBody : TargetBody :=
  { id := JSValue.undefined, url := JSValue.string "https://example.com",
    value := JSValue.string "-1.00", maxAcceptsPerDay := JSValue.string "5", accept := none }

/-- A store holding `limited` alone, with no counter. -/
def limitedFresh : Redis :=
  { limitedFull with counters := fun _ => none }

end Sample

/-! ## Eligibility -/

/-- C1: `isTargetEligible(T, g, h)` is true exactly when (a) `T` has no geoState
inclusion set or some member of it equals `g` after lower-casing both, and (b)
`T` has no hour inclusion set or `h` is a member of it. -/
theorem isTargetEligible_iff (js : Builtins) (T : Target) (g h : String) :
    isTargetEligible js T g h = true ↔
      (T.geoStateSet = none ∨
        ∃ S, T.geoStateSet = some S ∧ ∃ s ∈ S, js.toLowerCase s = js.toLowerCase g) ∧
      (T.hourSet = none ∨ ∃ H, T.hourSet = some H ∧ h ∈ H) := by
  unfold isTargetEligible Target.geoStateSet Target.hourSet
  cases hg : (T.accept.getD Accept.empty).geoStateIn <;>
    cases hh : (T.accept.getD Accept.empty).hourIn <;>
    simp [hg, hh, List.any_eq_true]

/-- C2: a target whose acceptance rule set is absent or empty is eligible for
every geoState and every hour. -/
theorem isTargetEligible_no_rules (js : Builtins) (T : Target) (g h : String)
    (hT : T.accept = none ∨ T.accept = some Accept.empty) :
    isTargetEligible js T g h = true := by
  rcases hT with hT | hT <;>
    simp [isTargetEligible, hT, Accept.empty, Accept.geoStateIn, Accept.hourIn]

/-- Witness of C2 on the target without accept criteria of the tests. -/
theorem isTargetEligible_no_rules_witness :
    (Sample.acceptAll.accept = none ∨ Sample.acceptAll.accept = some Accept.empty) ∧
      isTargetEligible refBuiltins Sample.acceptAll "unknown" "23" = true :=
  ⟨by decide, isTargetEligible_no_rules refBuiltins Sample.acceptAll "unknown" "23" (by decide)⟩

/-- C3 as stated fails: the target of the wrong-hour test has the geoState
inclusion set `["ca"]`, the visit geoState `ca` lower-cased equals a member of
it, and yet the target is not eligible at hour 16. -/
theorem isTargetEligible_geo_only_counterexample :
    Sample.rejectHour.geoStateSet = some ["ca"] ∧
      ¬ (isTargetEligible refBuiltins Sample.rejectHour "ca" "16" = true ↔
          ∃ s ∈ ["ca"], refBuiltins.toLowerCase s = refBuiltins.toLowerCase "ca") := by
  decide

/-- C3, amended: for a target with geoState inclusion set `S` whose hour check
passes (no hour inclusion set, or `h` is a member of it), the target is eligible
iff `g` lower-cased equals some member of `S` lower-cased; and for any target
with inclusion set `S`, replacing `g` and the members of `S` by strings with the
same lower-casing never changes the result. -/
theorem isTargetEligible_geo (js : Builtins) (T : Target) (S : List String) (g h : String)
    (hS : T.geoStateSet = some S)
    (hH : T.hourSet = none ∨ ∃ H, T.hourSet = some H ∧ h ∈ H) :
    (isTargetEligible js T g h = true ↔ ∃ s ∈ S, js.toLowerCase s = js.toLowerCase g) ∧
      ∀ (T2 : Target) (S2 : List String) (g2 h2 : String),
        T2.geoStateSet = some S2 → T2.hourSet = T.hourSet →
        S2.map js.toLowerCase = S.map js.toLowerCase →
        js.toLowerCase g2 = js.toLowerCase g →
        isTargetEligible js T2 g2 h2 = isTargetEligible js T g h2 := by
  constructor
  · unfold isTargetEligible
    unfold Target.geoStateSet at hS
    unfold Target.hourSet at hH
    rcases hH with hH | ⟨H, hH, hmem⟩
    · simp [hS, hH, List.any_eq_true]
    · simp [hS, hH, hmem, List.any_eq_true]
  · intro T2 S2 g2 h2 hS2 hH2 hmap hg
    unfold isTargetEligible
    unfold Target.geoStateSet at hS hS2
    unfold Target.hourSet at hH2
    have hany : S2.any (fun state => js.toLowerCase state == js.toLowerCase g2)
        = S.any (fun state => js.toLowerCase state == js.toLowerCase g) := by
      have h1 : ∀ (l : List String) (x : String),
          l.any (fun state => js.toLowerCase state == x)
            = (l.map js.toLowerCase).any (fun y => y == x) := by
        intro l x
        induction l with
        | nil => rfl
        | cons a l ih => simp [List.any_cons, ih]
      rw [h1 S2, h1 S, hmap, hg]
    simp only [hS, hS2, hH2, hany]

/-- Witness of the amended C3 on the upper-case target of the tests. -/
theorem isTargetEligible_geo_witness :
    Sample.upperCase.geoStateSet = some ["CA", "NY"] ∧ Sample.upperCase.hourSet = none ∧
      (isTargetEligible refBuiltins Sample.upperCase "ca" "14" = true ↔
        ∃ s ∈ ["CA", "NY"], refBuiltins.toLowerCase s = refBuiltins.toLowerCase "ca") :=
  ⟨by decide, by decide,
    (isTargetEligible_geo refBuiltins Sample.upperCase ["CA", "NY"] "ca" "14"
      (by decide) (Or.inl (by decide))).1⟩

/-! ## Quota -/

/-- The loop of `filterEligibleTargets`, started from any accumulator, appends
the targets that pass both tests, in order. -/
theorem filterEligible_foldl (js : Builtins) (redis : Redis) (geoState visitHour dateKey : String)
    (targets acc : List Target) :
    targets.foldl
      (fun eligible target =>
        if !(isTargetEligible js target geoState visitHour) then eligible
        else
          let accepts := getDailyAccepts redis target.id dateKey
          if JSNumber.lt accepts (js.parseInt target.maxAcceptsPerDay) then eligible ++ [target]
          else eligible)
      acc
    = acc ++ targets.filter (fun t =>
        isTargetEligible js t geoState visitHour &&
          JSNumber.lt (getDailyAccepts redis t.id dateKey) (js.parseInt t.maxAcceptsPerDay)) := by
  induction targets generalizing acc with
  | nil => simp
  | cons t ts ih =>
    simp only [List.foldl_cons, ih, List.filter_cons]
    cases h1 : isTargetEligible js t geoState visitHour <;>
      cases h2 : JSNumber.lt (getDailyAccepts redis t.id dateKey)
        (js.parseInt t.maxAcceptsPerDay) <;> simp

/-- The result of `filterEligibleTargets` is the input filtered by the two tests. -/
theorem filterEligibleTargets_eq_filter (js : Builtins) (redis : Redis) (targets : List Target)
    (geoState visitHour dateKey : String) :
    filterEligibleTargets js redis targets geoState visitHour dateKey
      = targets.filter (fun t =>
          isTargetEligible js t geoState visitHour &&
            JSNumber.lt (getDailyAccepts redis t.id dateKey) (js.parseInt t.maxAcceptsPerDay)) := by
  unfold filterEligibleTargets
  rw [filterEligible_foldl]
  simp

/-- No natural number is below zero as a Number. -/
theorem JSNumber.not_lt_ofNat_zero (n : Nat) :
    JSNumber.lt (JSNumber.ofNat n) (JSNumber.ofNat 0) = false := by
  simp [JSNumber.lt, JSNumber.ofNat]

/-- No Number is below itself. -/
theorem JSNumber.lt_irrefl (a : JSNumber) : JSNumber.lt a a = false := by
  cases a <;> simp [JSNumber.lt]

/-- C4: a rule-eligible target of the input is retained by `filterEligibleTargets`
iff the stored count of (T.id, d), 0 when there is no counter, is strictly below
the ceiling `parseInt(T.maxAcceptsPerDay, 10)`; a count equal to the ceiling
excludes it, and a target whose ceiling is 0 is never retained. -/
theorem filterEligibleTargets_quota (js : Builtins) (redis : Redis) (targets : List Target)
    (g h d : String) (T : Target) (hT : T ∈ targets)
    (hE : isTargetEligible js T g h = true) :
    (T ∈ filterEligibleTargets js redis targets g h d ↔
        JSNumber.lt (JSNumber.ofNat ((redis.get (getAcceptsKey T.id d)).getD 0))
          (js.parseInt T.maxAcceptsPerDay) = true) ∧
      (js.parseInt T.maxAcceptsPerDay
          = JSNumber.ofNat ((redis.get (getAcceptsKey T.id d)).getD 0) →
        T ∉ filterEligibleTargets js redis targets g h d) ∧
      (js.parseInt T.maxAcceptsPerDay = JSNumber.ofNat 0 →
        T ∉ filterEligibleTargets js redis targets g h d) := by
  have hcount : getDailyAccepts redis T.id d
      = JSNumber.ofNat ((redis.get (getAcceptsKey T.id d)).getD 0) := by
    unfold getDailyAccepts
    cases redis.get (getAcceptsKey T.id d) <;> rfl
  have key : T ∈ filterEligibleTargets js redis targets g h d ↔
      JSNumber.lt (JSNumber.ofNat ((redis.get (getAcceptsKey T.id d)).getD 0))
        (js.parseInt T.maxAcceptsPerDay) = true := by
    rw [filterEligibleTargets_eq_filter, List.mem_filter, hcount]
    simp [hT, hE]
  refine ⟨key, ?_, ?_⟩
  · intro hmax
    rw [key, hmax, JSNumber.lt_irrefl]
    simp
  · intro hmax
    rw [key, hmax, JSNumber.not_lt_ofNat_zero]
    simp

/-- Witness of C4: the daily-limit target of the tests, with ceiling 2, is
retained after one accept of the day. -/
theorem filterEligibleTargets_quota_witness :
    Sample.limited ∈ [Sample.limited] ∧
      isTargetEligible refBuiltins Sample.limited "ca" "14" = true ∧
      Sample.limited ∈ filterEligibleTargets refBuiltins Sample.limitedOnce [Sample.limited]
        "ca" "14" "2018-07-19" :=
  ⟨by decide, by decide,
    (filterEligibleTargets_quota refBuiltins Sample.limitedOnce [Sample.limited]
      "ca" "14" "2018-07-19" Sample.limited (by decide) (by decide)).1.2 (by decide)⟩

/-! ## Selection -/

/-- The operator `<` is transitive. -/
theorem JSNumber.lt_transitive {a b c : JSNumber} (hab : JSNumber.lt a b = true)
    (hbc : JSNumber.lt b c = true) : JSNumber.lt a c = true := by
  cases a <;> cases b <;> cases c <;> simp_all [JSNumber.lt]
  exact hab.trans hbc

/-- From `b >= t` and `b < x` follows `t < x`. -/
theorem JSNumber.lt_of_ge_of_lt {b t x : JSNumber} (hbt : JSNumber.ge b t = true)
    (hbx : JSNumber.lt b x = true) : JSNumber.lt t x = true := by
  cases b <;> cases t <;> cases x <;> simp_all [JSNumber.lt, JSNumber.ge]
  exact lt_of_le_of_lt hbt hbx

/-- From `t < b` follows `b >= t`. -/
theorem JSNumber.ge_of_lt {b t : JSNumber} (htb : JSNumber.lt t b = true) :
    JSNumber.ge b t = true := by
  cases b <;> cases t <;> simp_all [JSNumber.lt, JSNumber.ge]
  exact le_of_lt htb

/-- Two Numbers other than `NaN` of which the first is not below the second
satisfy `>=`. -/
theorem JSNumber.ge_of_not_lt {b x : JSNumber} (hb : b.isNumber = true) (hx : x.isNumber = true)
    (h : JSNumber.lt b x = false) : JSNumber.ge b x = true := by
  cases b <;> cases x <;> simp_all [JSNumber.lt, JSNumber.ge, JSNumber.isNumber]

/-- A Number other than `NaN` satisfies `a >= a`. -/
theorem JSNumber.ge_self {a : JSNumber} (ha : a.isNumber = true) : JSNumber.ge a a = true :=
  JSNumber.ge_of_not_lt ha ha (JSNumber.lt_irrefl a)

/-- From `b >= t` follows that `b < t` is false. -/
theorem JSNumber.not_lt_of_ge {b t : JSNumber} (hbt : JSNumber.ge b t = true) :
    JSNumber.lt b t = false := by
  cases b <;> cases t <;> simp_all [JSNumber.lt, JSNumber.ge]

/-- The scan of `selectBestTarget` splits its input around the result: the
elements before the result are strictly smaller, those after it are not larger. -/
theorem selectBest_scan_split (js : Builtins) (first : Target) (rest : List Target)
    (hnum : ∀ t ∈ first :: rest, (js.parseFloat t.value).isNumber = true) :
    ∃ pre post,
      first :: rest
        = pre ++ rest.foldl
            (fun best current =>
              if JSNumber.gt (js.parseFloat current.value) (js.parseFloat best.value)
              then current else best)
            first :: post ∧
      (∀ t ∈ pre,
        JSNumber.lt (js.parseFloat t.value)
          (js.parseFloat (rest.foldl
            (fun best current =>
              if JSNumber.gt (js.parseFloat current.value) (js.parseFloat best.value)
              then current else best)
            first).value) = true) ∧
      (∀ t ∈ post,
        JSNumber.ge
          (js.parseFloat (rest.foldl
            (fun best current =>
              if JSNumber.gt (js.parseFloat current.value) (js.parseFloat best.value)
              then current else best)
            first).value)
          (js.parseFloat t.value) = true) := by
  induction rest using List.reverseRecOn with
  | nil => exact ⟨[], [], by simp⟩
  | append_singleton l x ih =>
    have hl : ∀ t ∈ first :: l, (js.parseFloat t.value).isNumber = true := by
      intro t ht
      apply hnum
      rcases List.mem_cons.mp ht with h | h
      · exact h ▸ List.mem_cons_self _ _
      · exact List.mem_cons_of_mem _ (List.mem_append_left _ h)
    obtain ⟨pre, post, hsplit, hpre, hpost⟩ := ih hl
    have hx : (js.parseFloat x.value).isNumber = true :=
      hnum x (List.mem_cons_of_mem _ (List.mem_append_right _ (List.mem_singleton_self x)))
    generalize hb : l.foldl
        (fun best current =>
          if JSNumber.gt (js.parseFloat current.value) (js.parseFloat best.value)
          then current else best)
        first = b at hsplit hpre hpost
    have hbnum : (js.parseFloat b.value).isNumber = true := by
      apply hl
      rw [hsplit]
      simp
    rw [List.foldl_append, hb]
    simp only [List.foldl_cons, List.foldl_nil]
    cases hgt : JSNumber.gt (js.parseFloat x.value) (js.parseFloat b.value)
    · refine ⟨pre, post ++ [x], ?_, ?_, ?_⟩
      · rw [← List.cons_append, hsplit]
        simp
      · simpa using hpre
      · intro t ht
        rcases List.mem_append.mp ht with h | h
        · simpa using hpost t h
        · rw [List.mem_singleton.mp h]
          simpa using JSNumber.ge_of_not_lt hbnum hx hgt
    · refine ⟨pre ++ b :: post, [], ?_, ?_, ?_⟩
      · rw [← List.cons_append, hsplit]
        simp
      · intro t ht
        have hbx : JSNumber.lt (js.parseFloat b.value) (js.parseFloat x.value) = true := hgt
        simp only [if_true]
        rcases List.mem_append.mp ht with h | h
        · exact JSNumber.lt_transitive (hpre t h) hbx
        · rcases List.mem_cons.mp h with h | h
          · rw [h]
            exact hbx
          · exact JSNumber.lt_of_ge_of_lt (hpost t h) hbx
      · intro t ht
        simp at ht

/-- C5: on a non-empty list of targets whose values are numeric,
`selectBestTarget` returns an element of the list whose value, read by
`parseFloat` and compared as a Number, is `>=` the value of every element. -/
theorem selectBestTarget_max (js : Builtins) (targets : List Target) (hne : targets ≠ [])
    (hnum : ∀ t ∈ targets, (js.parseFloat t.value).isNumber = true) :
    ∃ best, selectBestTarget js targets = some best ∧ best ∈ targets ∧
      ∀ t ∈ targets, JSNumber.ge (js.parseFloat best.value) (js.parseFloat t.value) = true := by
  cases targets with
  | nil => exact absurd rfl hne
  | cons first rest =>
    obtain ⟨pre, post, hsplit, hpre, hpost⟩ := selectBest_scan_split js first rest hnum
    refine ⟨_, rfl, ?_, ?_⟩
    · rw [hsplit]
      simp
    · intro t ht
      have hbest := hnum _ (by rw [hsplit]; simp :
        rest.foldl
          (fun best current =>
            if JSNumber.gt (js.parseFloat current.value) (js.parseFloat best.value)
            then current else best)
          first ∈ first :: rest)
      rw [hsplit] at ht
      rcases List.mem_append.mp ht with h | h
      · exact JSNumber.ge_of_lt (hpre t h)
      · rcases List.mem_cons.mp h with h | h
        · rw [h]
          exact JSNumber.ge_self hbest
        · exact hpost t h

/-- Witness of C5: of a target valued 9.50 and a target valued 10.00 the second
is selected, although the text 10.00 sorts before the text 9.50. -/
theorem selectBestTarget_max_witness :
    ("10.00".toList < "9.50".toList) ∧
      selectBestTarget refBuiltins [Sample.nineFifty, Sample.tenFlat] = some Sample.tenFlat ∧
      ∃ best, selectBestTarget refBuiltins [Sample.nineFifty, Sample.tenFlat] = some best ∧
        best ∈ [Sample.nineFifty, Sample.tenFlat] ∧
        ∀ t ∈ [Sample.nineFifty, Sample.tenFlat],
          JSNumber.ge (refBuiltins.parseFloat best.value) (refBuiltins.parseFloat t.value)
            = true :=
  ⟨by decide, by decide,
    selectBestTarget_max refBuiltins [Sample.nineFifty, Sample.tenFlat] (by decide) (by decide)⟩

/-- C6: on a non-empty list of targets (with numeric values), `selectBestTarget`
returns the first element in input order that attains the maximum value: the
list splits around the result, every element before it has a strictly smaller
value, and no element of the list has a larger one. -/
theorem selectBestTarget_first_max (js : Builtins) (targets : List Target) (hne : targets ≠ [])
    (hnum : ∀ t ∈ targets, (js.parseFloat t.value).isNumber = true) :
    ∃ best pre post, selectBestTarget js targets = some best ∧
      targets = pre ++ best :: post ∧
      (∀ t ∈ pre, JSNumber.lt (js.parseFloat t.value) (js.parseFloat best.value) = true) ∧
      (∀ t ∈ targets,
        JSNumber.lt (js.parseFloat best.value) (js.parseFloat t.value) = false) := by
  cases targets with
  | nil => exact absurd rfl hne
  | cons first rest =>
    obtain ⟨pre, post, hsplit, hpre, hpost⟩ := selectBest_scan_split js first rest hnum
    refine ⟨_, pre, post, rfl, hsplit, hpre, ?_⟩
    intro t ht
    rw [hsplit] at ht
    rcases List.mem_append.mp ht with h | h
    · exact JSNumber.not_lt_of_ge (JSNumber.ge_of_lt (hpre t h))
    · rcases List.mem_cons.mp h with h | h
      · rw [h]
        exact JSNumber.lt_irrefl _
      · exact JSNumber.not_lt_of_ge (hpost t h)

/-- Witness of C6: of two targets tied at 10.00 behind a smaller one, the first
of the two is selected. -/
theorem selectBestTarget_first_max_witness :
    selectBestTarget refBuiltins [Sample.nineFifty, Sample.tenFlat, Sample.tenAgain]
        = some Sample.tenFlat ∧
      ∃ best pre post,
        selectBestTarget refBuiltins [Sample.nineFifty, Sample.tenFlat, Sample.tenAgain]
          = some best ∧
        [Sample.nineFifty, Sample.tenFlat, Sample.tenAgain] = pre ++ best :: post ∧
        (∀ t ∈ pre,
          JSNumber.lt (refBuiltins.parseFloat t.value) (refBuiltins.parseFloat best.value)
            = true) ∧
        (∀ t ∈ [Sample.nineFifty, Sample.tenFlat, Sample.tenAgain],
          JSNumber.lt (refBuiltins.parseFloat best.value) (refBuiltins.parseFloat t.value)
            = false) :=
  ⟨by decide,
    selectBestTarget_first_max refBuiltins [Sample.nineFifty, Sample.tenFlat, Sample.tenAgain]
      (by decide) (by decide)⟩

/-! ## The routing decision -/

/-- The function `selectBestTarget` throws on the empty list only. -/
theorem selectBestTarget_eq_none (js : Builtins) (targets : List Target) :
    selectBestTarget js targets = none ↔ targets = [] := by
  cases targets <;> simp [selectBestTarget]

/-- The function `routeVisitor` in one equation: the decision and the store
after the call are fixed by what `selectBestTarget` yields on the candidates. -/
theorem routeVisitor_eq (js : Builtins) (redis : Redis) (visit : Visit) :
    routeVisitor js redis visit =
      match selectBestTarget js
          (filterEligibleTargets js redis (getAllTargets redis)
            visit.geoState visit.hour visit.dateKey) with
      | none => Except.ok (Decision.reject, redis)
      | some best =>
        Except.ok
          (Decision.accept { id := best.id, url := best.url, value := best.value },
            incrementDailyAccepts redis best.id visit.dateKey) := by
  unfold routeVisitor Visit.hour Visit.dateKey
  simp only []
  by_cases h0 : (getAllTargets redis).length = 0
  · have hnil : getAllTargets redis = [] := List.length_eq_zero.mp h0
    simp [hnil, filterEligibleTargets, selectBestTarget]
  · rw [if_neg h0]
    by_cases h1 : (filterEligibleTargets js redis (getAllTargets redis) visit.geoState
        (toString (Date.getUTCHours visit.timestamp)) (Date.isoDate visit.timestamp)).length = 0
    · have hnil := List.length_eq_zero.mp h1
      simp [hnil, selectBestTarget]
    · rw [if_neg h1]
      have hne : selectBestTarget js (filterEligibleTargets js redis (getAllTargets redis)
          visit.geoState (toString (Date.getUTCHours visit.timestamp))
          (Date.isoDate visit.timestamp)) ≠ none := by
        intro hn
        exact h1 (by rw [(selectBestTarget_eq_none js _).mp hn]; rfl)
      cases hsel : selectBestTarget js (filterEligibleTargets js redis (getAllTargets redis)
          visit.geoState (toString (Date.getUTCHours visit.timestamp))
          (Date.isoDate visit.timestamp)) with
      | none => exact absurd hsel hne
      | some best => rfl

/-- The candidates of a visit are the stored targets that pass the rule test and
the quota test. -/
theorem mem_candidates (js : Builtins) (redis : Redis) (visit : Visit) (t : Target) :
    t ∈ filterEligibleTargets js redis (getAllTargets redis)
        visit.geoState visit.hour visit.dateKey ↔
      t ∈ getAllTargets redis ∧ isTargetEligible js t visit.geoState visit.hour = true ∧
        hasQuota js redis t visit.dateKey = true := by
  rw [filterEligibleTargets_eq_filter, List.mem_filter]
  simp [hasQuota]

/-- C7: `routeVisitor` returns an accept decision iff some stored target is both
rule-eligible for the geoState and UTC hour of the visit and under quota for
its UTC date; the id, url and value returned are those of `selectBestTarget`
applied to the candidates; otherwise the result is the reject decision. -/
theorem routeVisitor_decision (js : Builtins) (redis : Redis) (visit : Visit) :
    ((∃ tgt redis', routeVisitor js redis visit = Except.ok (Decision.accept tgt, redis')) ↔
        ∃ t ∈ getAllTargets redis,
          isTargetEligible js t visit.geoState visit.hour = true ∧
            hasQuota js redis t visit.dateKey = true) ∧
      (∀ tgt redis', routeVisitor js redis visit = Except.ok (Decision.accept tgt, redis') →
        ∃ best,
          selectBestTarget js
              (filterEligibleTargets js redis (getAllTargets redis)
                visit.geoState visit.hour visit.dateKey) = some best ∧
            tgt = { id := best.id, url := best.url, value := best.value }) ∧
      ((¬ ∃ t ∈ getAllTargets redis,
          isTargetEligible js t visit.geoState visit.hour = true ∧
            hasQuota js redis t visit.dateKey = true) →
        ∃ redis', routeVisitor js redis visit = Except.ok (Decision.reject, redis')) := by
  have hex : (∃ t ∈ getAllTargets redis,
        isTargetEligible js t visit.geoState visit.hour = true ∧
          hasQuota js redis t visit.dateKey = true) ↔
      filterEligibleTargets js redis (getAllTargets redis)
        visit.geoState visit.hour visit.dateKey ≠ [] := by
    rw [ne_eq, List.eq_nil_iff_forall_not_mem]
    constructor
    · rintro ⟨t, ht, h1, h2⟩ hall
      exact hall t ((mem_candidates js redis visit t).mpr ⟨ht, h1, h2⟩)
    · intro h
      push_neg at h
      obtain ⟨t, ht⟩ := h
      obtain ⟨h0, h1, h2⟩ := (mem_candidates js redis visit t).mp ht
      exact ⟨t, h0, h1, h2⟩
  rw [hex, routeVisitor_eq]
  cases hsel : selectBestTarget js (filterEligibleTargets js redis (getAllTargets redis)
      visit.geoState visit.hour visit.dateKey) with
  | none =>
    have hnil := (selectBestTarget_eq_none js _).mp hsel
    refine ⟨?_, ?_, ?_⟩
    · simp [hnil]
    · intro tgt redis' h
      simp at h
    · intro _
      exact ⟨redis, rfl⟩
  | some best =>
    have hne : filterEligibleTargets js redis (getAllTargets redis)
        visit.geoState visit.hour visit.dateKey ≠ [] := by
      intro hnil
      rw [(selectBestTarget_eq_none js _).mpr hnil] at hsel
      exact Option.noConfusion hsel
    refine ⟨?_, ?_, ?_⟩
    · constructor
      · intro _
        exact hne
      · intro _
        exact ⟨_, _, rfl⟩
    · intro tgt redis' h
      refine ⟨best, rfl, ?_⟩
      simp only [Except.ok.injEq, Prod.mk.injEq, Decision.accept.injEq] at h
      exact h.1.symm
    · intro h
      exact absurd hne h

/-- C8: on an empty target repository `routeVisitor` returns the reject decision
and leaves the store as it was: no command is added to the writes received. -/
theorem routeVisitor_empty_repository (js : Builtins) (redis : Redis) (visit : Visit)
    (hempty : getAllTargets redis = []) :
    ∃ redis', routeVisitor js redis visit = Except.ok (Decision.reject, redis') ∧
      redis' = redis ∧ redis'.writes = redis.writes := by
  refine ⟨redis, ?_, rfl, rfl⟩
  rw [routeVisitor_eq, hempty]
  simp [filterEligibleTargets, selectBestTarget]

/-- Witness of C8: the first visit after the store is flushed. -/
theorem routeVisitor_empty_repository_witness :
    getAllTargets Redis.empty = [] ∧
      ∃ redis', routeVisitor refBuiltins Redis.empty Sample.visit14
          = Except.ok (Decision.reject, redis') ∧
        redis' = Redis.empty ∧ redis'.writes = Redis.empty.writes :=
  ⟨by decide, routeVisitor_empty_repository refBuiltins Redis.empty Sample.visit14 (by decide)⟩

/-! ## Effect on the counters -/

/-- On one date, two target ids with the same counter key are equal. -/
theorem getAcceptsKey_id_injective (i j date : String)
    (h : getAcceptsKey i date = getAcceptsKey j date) : i = j := by
  unfold getAcceptsKey at h
  have hd := congrArg String.data h
  simp only [String.data_append, List.append_assoc] at hd
  have h1 := List.append_cancel_left hd
  rw [← List.append_assoc, ← List.append_assoc] at h1
  have h2 := List.append_cancel_right h1
  have h3 := List.append_cancel_right h2
  exact String.ext h3

/-- For one target id, two dates with the same counter key are equal. -/
theorem getAcceptsKey_date_injective (i date1 date2 : String)
    (h : getAcceptsKey i date1 = getAcceptsKey i date2) : date1 = date2 := by
  unfold getAcceptsKey at h
  have hd := congrArg String.data h
  simp only [String.data_append] at hd
  exact String.ext (List.append_cancel_left hd)

/-- The counters after `incrementDailyAccepts`. -/
theorem incrementDailyAccepts_counters (redis : Redis) (targetId date k : String) :
    (incrementDailyAccepts redis targetId date).counters k =
      if k = getAcceptsKey targetId date then
        some ((redis.counters (getAcceptsKey targetId date)).getD 0 + 1)
      else redis.counters k := by
  unfold incrementDailyAccepts Redis.expire Redis.incr
  by_cases hk : k = getAcceptsKey targetId date
  · simp only [hk, if_true]
    cases redis.counters (getAcceptsKey targetId date) <;> simp
  · simp only [hk, if_false]

/-- C9: when `routeVisitor` returns an accept decision, the counter of the
winner for the date of the visit is larger by exactly 1 (it is 1 if there was
none), every other counter key, and so the counter of every other target on that
date and of the winner on every other date, holds what it held, the records and
the target set are untouched, and the writes received are one INCR and one
EXPIRE on the winner's counter key. -/
theorem routeVisitor_accept_effect (js : Builtins) (redis : Redis) (visit : Visit)
    (tgt : DecisionTarget) (redis' : Redis)
    (hacc : routeVisitor js redis visit = Except.ok (Decision.accept tgt, redis')) :
    redis'.counters (getAcceptsKey tgt.id visit.dateKey)
        = some ((redis.counters (getAcceptsKey tgt.id visit.dateKey)).getD 0 + 1) ∧
      (∀ k, k ≠ getAcceptsKey tgt.id visit.dateKey → redis'.counters k = redis.counters k) ∧
      (∀ j, j ≠ tgt.id →
        redis'.counters (getAcceptsKey j visit.dateKey)
          = redis.counters (getAcceptsKey j visit.dateKey)) ∧
      (∀ date, date ≠ visit.dateKey →
        redis'.counters (getAcceptsKey tgt.id date)
          = redis.counters (getAcceptsKey tgt.id date)) ∧
      redis'.records = redis.records ∧ redis'.sets = redis.sets ∧
      redis'.writes = redis.writes ++
        [RedisWrite.incr (getAcceptsKey tgt.id visit.dateKey),
          RedisWrite.expire (getAcceptsKey tgt.id visit.dateKey) EXPIRE_SECONDS] := by
  rw [routeVisitor_eq] at hacc
  cases hsel : selectBestTarget js (filterEligibleTargets js redis (getAllTargets redis)
      visit.geoState visit.hour visit.dateKey) with
  | none =>
    rw [hsel] at hacc
    simp at hacc
  | some best =>
    rw [hsel] at hacc
    simp only [Except.ok.injEq, Prod.mk.injEq, Decision.accept.injEq] at hacc
    obtain ⟨htgt, hredis⟩ := hacc
    subst htgt
    subst hredis
    have hother : ∀ k, k ≠ getAcceptsKey best.id visit.dateKey →
        (incrementDailyAccepts redis best.id visit.dateKey).counters k = redis.counters k := by
      intro k hk
      rw [incrementDailyAccepts_counters, if_neg hk]
    refine ⟨?_, hother, ?_, ?_, rfl, rfl, ?_⟩
    · rw [incrementDailyAccepts_counters, if_pos rfl]
    · intro j hj
      exact hother _ (fun h => hj (getAcceptsKey_id_injective _ _ _ h))
    · intro date hdate
      exact hother _ (fun h => hdate (getAcceptsKey_date_injective _ _ _ h))
    · simp [incrementDailyAccepts, Redis.expire, Redis.incr]

/-- Witness of C9: the second accept of the daily-limit test takes the counter
of the target from 1 to 2. -/
theorem routeVisitor_accept_effect_witness :
    routeVisitor refBuiltins Sample.limitedOnce Sample.visit14
        = Except.ok
          (Decision.accept { id := "t-lim", url := "http://limited.com", value := "1.00" },
            incrementDailyAccepts Sample.limitedOnce "t-lim" "2018-07-19") ∧
      (incrementDailyAccepts Sample.limitedOnce "t-lim" "2018-07-19").counters
          "target:t-lim:accepts:2018-07-19" = some 2 :=
  ⟨rfl,
    (routeVisitor_accept_effect refBuiltins Sample.limitedOnce Sample.visit14
      { id := "t-lim", url := "http://limited.com", value := "1.00" }
      (incrementDailyAccepts Sample.limitedOnce "t-lim" "2018-07-19") rfl).1⟩

/-- C10: when the repository is not empty and no stored target is both
rule-eligible and under quota, `routeVisitor` returns the reject decision and
the store is as it was, counters, expiries and writes received included. -/
theorem routeVisitor_no_candidate (js : Builtins) (redis : Redis) (visit : Visit)
    (_hsome : getAllTargets redis ≠ [])
    (hnone : ∀ t ∈ getAllTargets redis,
      ¬ (isTargetEligible js t visit.geoState visit.hour = true ∧
          hasQuota js redis t visit.dateKey = true)) :
    ∃ redis', routeVisitor js redis visit = Except.ok (Decision.reject, redis') ∧
      redis' = redis ∧ redis'.counters = redis.counters ∧ redis'.ttl = redis.ttl ∧
      redis'.writes = redis.writes := by
  refine ⟨redis, ?_, rfl, rfl, rfl, rfl⟩
  have hnil : filterEligibleTargets js redis (getAllTargets redis)
      visit.geoState visit.hour visit.dateKey = [] := by
    rw [List.eq_nil_iff_forall_not_mem]
    intro t ht
    obtain ⟨h0, h1, h2⟩ := (mem_candidates js redis visit t).mp ht
    exact hnone t h0 ⟨h1, h2⟩
  rw [routeVisitor_eq, hnil]
  rfl

/-- Witness of C10: the wrong-hour test, a visit at hour 16 to a store whose one
target accepts the hours 13, 14 and 15. -/
theorem routeVisitor_no_candidate_witness :
    getAllTargets Sample.rejectHourStore ≠ [] ∧
      ∃ redis', routeVisitor refBuiltins Sample.rejectHourStore Sample.visit16
          = Except.ok (Decision.reject, redis') ∧
        redis' = Sample.rejectHourStore ∧ redis'.counters = Sample.rejectHourStore.counters ∧
        redis'.ttl = Sample.rejectHourStore.ttl ∧
        redis'.writes = Sample.rejectHourStore.writes :=
  ⟨by decide,
    routeVisitor_no_candidate refBuiltins Sample.rejectHourStore Sample.visit16
      (by decide) (by decide)⟩

/-! ## The candidate list -/

/-- On a client on which no read of a counter fails, whatever happens to the
other commands, the loop of `filterEligibleTargets` is the loop over the store. -/
theorem faulty_filterLoop_reads_ok (faults : Faults) (js : Builtins) (redis : Redis)
    (g h d : String) (hget : ∀ key, faults.fails (RedisCommand.get key) = none) :
    ∀ (targets eligible : List Target),
      Faulty.filterLoop faults js redis g h d targets eligible
        = Except.ok (targets.foldl
            (fun eligible target =>
              if !(isTargetEligible js target g h) then eligible
              else
                let accepts := getDailyAccepts redis target.id d
                if JSNumber.lt accepts (js.parseInt target.maxAcceptsPerDay)
                then eligible ++ [target] else eligible)
            eligible) := by
  intro targets
  induction targets with
  | nil => intro eligible; rfl
  | cons t ts ih =>
    intro eligible
    have hread : Faulty.getDailyAccepts faults redis t.id d
        = Except.ok (getDailyAccepts redis t.id d) := by
      unfold Faulty.getDailyAccepts Faulty.getAsync getDailyAccepts
      simp only [hget]
      cases redis.get (getAcceptsKey t.id d) <;> rfl
    simp only [Faulty.filterLoop, List.foldl_cons, hread]
    cases isTargetEligible js t g h <;>
      cases JSNumber.lt (getDailyAccepts redis t.id d) (js.parseInt t.maxAcceptsPerDay) <;>
      simp [ih]

/-- C14: `filterEligibleTargets` returns the input filtered by the eligibility
test and the quota test: a target is in the result iff it is in the input and
passes both, the result is a sub-list of the input (same relative order), and
no target occurs in it more often than in the input.  The function only reads
the store: it has no store to return, and on a client whose counter reads
succeed it returns that same list even if every other command fails. -/
theorem filterEligibleTargets_sublist (js : Builtins) (redis : Redis) (targets : List Target)
    (g h d : String) :
    filterEligibleTargets js redis targets g h d
        = targets.filter (fun t => isTargetEligible js t g h && hasQuota js redis t d) ∧
      (∀ t, t ∈ filterEligibleTargets js redis targets g h d ↔
        t ∈ targets ∧ isTargetEligible js t g h = true ∧ hasQuota js redis t d = true) ∧
      (filterEligibleTargets js redis targets g h d).Sublist targets ∧
      (∀ t, (filterEligibleTargets js redis targets g h d).count t ≤ targets.count t) ∧
      ∀ faults : Faults, (∀ key, faults.fails (RedisCommand.get key) = none) →
        Faulty.filterEligibleTargets faults js redis targets g h d
          = Except.ok (filterEligibleTargets js redis targets g h d) := by
  have heq : filterEligibleTargets js redis targets g h d
      = targets.filter (fun t => isTargetEligible js t g h && hasQuota js redis t d) := by
    rw [filterEligibleTargets_eq_filter]
    rfl
  refine ⟨heq, ?_, ?_, ?_, ?_⟩
  · intro t
    rw [heq, List.mem_filter]
    simp
  · rw [heq]
    exact List.filter_sublist _
  · intro t
    rw [heq]
    exact (List.filter_sublist _).count_le t
  · intro faults hget
    unfold Faulty.filterEligibleTargets filterEligibleTargets
    exact faulty_filterLoop_reads_ok faults js redis g h d hget targets []

/-! ## Hour of day and date key -/

/-- C15: the hour that `routeVisitor` hands to the eligibility filter is the
decimal text of the UTC hour-of-day `h` of the instant, the `h` below 24 for
which the time value is a whole number of days plus `h` hours plus less than an
hour; the text is one of the 24 texts without zero-padding, and `0` at
midnight. -/
theorem visit_hour_utc (visit : Visit) :
    ∃ h : Nat, h < 24 ∧
      (∃ day rest : Int,
        visit.timestamp = day * 86400000 + (h : Int) * 3600000 + rest ∧
          0 ≤ rest ∧ rest < 3600000) ∧
      visit.hour = toString h ∧
      visit.hour ∈ ["0", "1", "2", "3", "4", "5", "6", "7", "8", "9", "10", "11",
        "12", "13", "14", "15", "16", "17", "18", "19", "20", "21", "22", "23"] ∧
      (h = 0 → visit.hour = "0") := by
  have hnn : 0 ≤ (visit.timestamp / 3600000) % 24 := Int.emod_nonneg _ (by decide)
  have hlt : (visit.timestamp / 3600000) % 24 < 24 := Int.emod_lt_of_pos _ (by decide)
  have hcast : ((Date.getUTCHours visit.timestamp : Nat) : Int)
      = (visit.timestamp / 3600000) % 24 := Int.toNat_of_nonneg hnn
  have hh : Date.getUTCHours visit.timestamp < 24 := by omega
  have hall : ∀ h < 24, toString h ∈ ["0", "1", "2", "3", "4", "5", "6", "7", "8", "9", "10",
      "11", "12", "13", "14", "15", "16", "17", "18", "19", "20", "21", "22", "23"] := by
    decide
  refine ⟨Date.getUTCHours visit.timestamp, hh, ?_, rfl, hall _ hh, ?_⟩
  · refine ⟨visit.timestamp / 86400000, visit.timestamp % 3600000, ?_, ?_, ?_⟩
    · rw [hcast]
      omega
    · exact Int.emod_nonneg _ (by decide)
    · exact Int.emod_lt_of_pos _ (by decide)
  · intro h0
    unfold Visit.hour
    rw [h0]
    rfl

/-- The midnight test: a visit at 2018-07-19T00:28:59.513Z has the hour `0`, on
the date key 2018-07-19. -/
theorem visit_hour_midnight :
    Sample.visitMidnight.hour = "0" ∧ Sample.visitMidnight.dateKey = "2018-07-19" := by
  decide

/-! ## Counter keys -/

/-- A date key of the form `YYYY-MM-DD` has ten characters. -/
theorem isDateKey_length (date : String) (h : isDateKey date = true) :
    date.data.length = 10 := by
  unfold isDateKey at h
  split at h
  · next heq =>
    have : date.data = _ := heq
    rw [this]
    rfl
  · exact absurd h (by simp)

/-- C16: on date keys of the form `YYYY-MM-DD` the counter key is injective in
the pair of target id and date key. -/
theorem getAcceptsKey_injective (i j d e : String) (hd : isDateKey d = true)
    (he : isDateKey e = true) (h : getAcceptsKey i d = getAcceptsKey j e) :
    i = j ∧ d = e := by
  unfold getAcceptsKey at h
  have hdata := congrArg String.data h
  simp only [String.data_append] at hdata
  have hlen : d.data.length = e.data.length := by
    rw [isDateKey_length d hd, isDateKey_length e he]
  obtain ⟨h1, h2⟩ := List.append_inj' hdata hlen
  have h3 := List.append_cancel_right h1
  have h4 := List.append_cancel_left h3
  exact ⟨String.ext h4, String.ext h2⟩

/-- Witness of C16: a key of 2018-07-19 determines its target id and its date. -/
theorem getAcceptsKey_injective_witness :
    isDateKey "2018-07-19" = true ∧
      getAcceptsKey "t-lim" "2018-07-19" = "target:t-lim:accepts:2018-07-19" ∧
      ("t-lim" = "t-lim" ∧ "2018-07-19" = "2018-07-19") :=
  ⟨by decide, by decide,
    getAcceptsKey_injective "t-lim" "t-lim" "2018-07-19" "2018-07-19"
      (by decide) (by decide) rfl⟩

/-- A decimal digit is not rendered as a colon. -/
theorem digitChar_ne_colon : ∀ n < 10, Nat.digitChar n ≠ ':' := by
  decide

/-- The digits that `Nat.toDigitsCore` puts in front of a list without a colon
leave it without a colon. -/
theorem toDigitsCore_no_colon (fuel : Nat) : ∀ (n : Nat) (ds : List Char), ':' ∉ ds →
    ':' ∉ Nat.toDigitsCore 10 fuel n ds := by
  induction fuel with
  | zero =>
    intro n ds h
    simpa [Nat.toDigitsCore] using h
  | succ fuel ih =>
    intro n ds h
    unfold Nat.toDigitsCore
    have hcons : ':' ∉ Nat.digitChar (n % 10) :: ds := by
      intro hmem
      rcases List.mem_cons.mp hmem with h1 | h1
      · exact digitChar_ne_colon _ (Nat.mod_lt n (by decide)) h1.symm
      · exact h h1
    simp only []
    split
    · exact hcons
    · exact ih _ _ hcons

/-- The decimal text of a natural number has no colon. -/
theorem toString_no_colon (n : Nat) : ':' ∉ (toString n).data := by
  show ':' ∉ (Nat.repr n).data
  unfold Nat.repr Nat.toDigits
  simpa [List.asString] using toDigitsCore_no_colon (n + 1) n [] (by simp)

/-- The characters of `s.pushn c n`. -/
theorem pushn_data (s : String) (c : Char) (n : Nat) :
    (s.pushn c n).data = s.data ++ List.replicate n c := by
  induction n with
  | zero => simp [String.pushn, Nat.repeat]
  | succ n ih =>
    unfold String.pushn at ih ⊢
    simp only [Nat.repeat, String.data_push, ih]
    simp [List.replicate_succ']

/-- A padded number has no colon. -/
theorem pad_no_colon (w n : Nat) : ':' ∉ (Date.pad w n).data := by
  unfold Date.pad
  rw [String.data_append, pushn_data]
  intro h
  rcases List.mem_append.mp h with h1 | h1
  · simp at h1
  · exact toString_no_colon n h1

/-- The date key of a time value has no colon, whatever the year. -/
theorem isoDate_no_colon (t : Int) : ':' ∉ (Date.isoDate t).data := by
  unfold Date.isoDate Date.isoYear
  simp only []
  split_ifs <;>
    simp only [String.data_append, List.mem_append, not_or] <;>
    refine ⟨⟨⟨⟨?_, ?_⟩, ?_⟩, ?_⟩, ?_⟩ <;>
    first
      | exact pad_no_colon _ _
      | decide
      | exact ⟨by decide, pad_no_colon _ _⟩

/-- Two lists that agree, each cut at its last occurrence of `c`, agree on both
sides of the cut. -/
theorem append_cons_cut {α : Type} {a b d e : List α} {c : α} (hd : c ∉ d) (he : c ∉ e)
    (h : a ++ c :: d = b ++ c :: e) : a = b ∧ d = e := by
  rcases List.append_eq_append_iff.mp h with ⟨m, hb, hm⟩ | ⟨m, ha, hm⟩
  · cases m with
    | nil =>
      simp only [List.nil_append, List.cons.injEq, true_and] at hm
      exact ⟨by simpa using hb.symm, hm⟩
    | cons x m =>
      simp only [List.cons_append, List.cons.injEq] at hm
      exact absurd (by rw [hm.2]; simp : c ∈ d) hd
  · cases m with
    | nil =>
      simp only [List.nil_append, List.cons.injEq, true_and] at hm
      exact ⟨by simpa using ha, hm.symm⟩
    | cons x m =>
      simp only [List.cons_append, List.cons.injEq] at hm
      exact absurd (by rw [hm.2]; simp : c ∈ e) he

/-- On dates without a colon the counter key is injective in the pair of target
id and date. -/
theorem getAcceptsKey_injective_of_no_colon (i j d e : String) (hd : ':' ∉ d.data)
    (he : ':' ∉ e.data) (h : getAcceptsKey i d = getAcceptsKey j e) : i = j ∧ d = e := by
  unfold getAcceptsKey at h
  have hdata := congrArg String.data h
  simp only [String.data_append] at hdata
  have hcut :
      (['t', 'a', 'r', 'g', 'e', 't', ':'] ++ i.data ++ [':', 'a', 'c', 'c', 'e', 'p', 't', 's'])
          ++ ':' :: d.data
        = (['t', 'a', 'r', 'g', 'e', 't', ':'] ++ j.data
            ++ [':', 'a', 'c', 'c', 'e', 'p', 't', 's']) ++ ':' :: e.data := by
    simpa [List.append_assoc] using hdata
  obtain ⟨h1, h2⟩ := append_cons_cut hd he hcut
  have h3 := List.append_cancel_right h1
  have h4 := List.append_cancel_left h3
  exact ⟨String.ext h4, String.ext h2⟩

/-! ## Days are independent -/

/-- The result of `selectBestTarget` is one of the targets it was given. -/
theorem selectBestTarget_mem (js : Builtins) (targets : List Target) (best : Target)
    (h : selectBestTarget js targets = some best) : best ∈ targets := by
  cases targets with
  | nil => simp [selectBestTarget] at h
  | cons first rest =>
    simp only [selectBestTarget, Option.some.injEq] at h
    subst h
    have hgen : ∀ (l : List Target) (b : Target),
        l.foldl
          (fun best current =>
            if JSNumber.gt (js.parseFloat current.value) (js.parseFloat best.value)
            then current else best)
          b ∈ b :: l := by
      intro l
      induction l with
      | nil => intro b; simp
      | cons x l ih =>
        intro b
        simp only [List.foldl_cons]
        split
        · have := ih x
          rcases List.mem_cons.mp this with h1 | h1
          · rw [h1]; simp
          · exact List.mem_cons_of_mem _ (List.mem_cons_of_mem _ h1)
        · have := ih b
          rcases List.mem_cons.mp this with h1 | h1
          · rw [h1]; simp
          · exact List.mem_cons_of_mem _ (List.mem_cons_of_mem _ h1)
    exact hgen rest first

/-- The two outcomes of `routeVisitor`: the reject decision on the unchanged
store when there is no candidate, or the accept decision for a candidate, on
the store after `incrementDailyAccepts` for that candidate. -/
theorem routeVisitor_cases (js : Builtins) (redis : Redis) (visit : Visit) :
    (filterEligibleTargets js redis (getAllTargets redis)
          visit.geoState visit.hour visit.dateKey = [] ∧
        routeVisitor js redis visit = Except.ok (Decision.reject, redis)) ∨
      ∃ best,
        best ∈ filterEligibleTargets js redis (getAllTargets redis)
          visit.geoState visit.hour visit.dateKey ∧
        selectBestTarget js (filterEligibleTargets js redis (getAllTargets redis)
          visit.geoState visit.hour visit.dateKey) = some best ∧
        routeVisitor js redis visit =
          Except.ok
            (Decision.accept { id := best.id, url := best.url, value := best.value },
              incrementDailyAccepts redis best.id visit.dateKey) := by
  rw [routeVisitor_eq]
  cases hsel : selectBestTarget js (filterEligibleTargets js redis (getAllTargets redis)
      visit.geoState visit.hour visit.dateKey) with
  | none => exact Or.inl ⟨(selectBestTarget_eq_none js _).mp hsel, rfl⟩
  | some best => exact Or.inr ⟨best, selectBestTarget_mem js _ _ hsel, rfl, rfl⟩

/-- C13: an accepted decision for a visit on one UTC date leaves the counter of
every target on the date of a visit of another UTC date as it was, so the quota
test of the target on that other date gives the same answer before and after:
a target that was under quota there still is, even when the accept has
exhausted its quota on the date of the accepted visit. -/
theorem routeVisitor_other_date (js : Builtins) (redis : Redis) (visit other : Visit)
    (tgt : DecisionTarget) (redis' : Redis)
    (hacc : routeVisitor js redis visit = Except.ok (Decision.accept tgt, redis'))
    (hdate : other.dateKey ≠ visit.dateKey) (T : Target) :
    redis'.counters (getAcceptsKey T.id other.dateKey)
        = redis.counters (getAcceptsKey T.id other.dateKey) ∧
      hasQuota js redis' T other.dateKey = hasQuota js redis T other.dateKey ∧
      (hasQuota js redis' T visit.dateKey = false → hasQuota js redis T other.dateKey = true →
        hasQuota js redis' T other.dateKey = true) := by
  have hcount : redis'.counters (getAcceptsKey T.id other.dateKey)
      = redis.counters (getAcceptsKey T.id other.dateKey) := by
    rcases routeVisitor_cases js redis visit with ⟨_, hrej⟩ | ⟨best, _, _, hok⟩
    · rw [hrej] at hacc
      simp at hacc
    · rw [hok] at hacc
      simp only [Except.ok.injEq, Prod.mk.injEq, Decision.accept.injEq] at hacc
      rw [← hacc.2, incrementDailyAccepts_counters, if_neg]
      intro hkey
      exact hdate (getAcceptsKey_injective_of_no_colon _ _ _ _
        (isoDate_no_colon _) (isoDate_no_colon _) hkey).2
  have hquota : hasQuota js redis' T other.dateKey = hasQuota js redis T other.dateKey := by
    unfold hasQuota getDailyAccepts Redis.get
    rw [hcount]
  exact ⟨hcount, hquota, fun _ h => hquota ▸ h⟩

/-- Witness of C13: the daily-reset test.  The accept of 2018-07-19 exhausts the
one accept of the day, and the target is under quota on 2018-07-20. -/
theorem routeVisitor_other_date_witness :
    routeVisitor refBuiltins Sample.dailyResetStore Sample.visit14
        = Except.ok
          (Decision.accept { id := "t-day", url := "http://daily-reset.com", value := "1.00" },
            incrementDailyAccepts Sample.dailyResetStore "t-day" "2018-07-19") ∧
      Sample.visitNextDay.dateKey ≠ Sample.visit14.dateKey ∧
      hasQuota refBuiltins (incrementDailyAccepts Sample.dailyResetStore "t-day" "2018-07-19")
        Sample.dailyReset Sample.visit14.dateKey = false ∧
      hasQuota refBuiltins (incrementDailyAccepts Sample.dailyResetStore "t-day" "2018-07-19")
        Sample.dailyReset Sample.visitNextDay.dateKey = true :=
  ⟨rfl, by decide, by decide,
    (routeVisitor_other_date refBuiltins Sample.dailyResetStore Sample.visit14
      Sample.visitNextDay
      { id := "t-day", url := "http://daily-reset.com", value := "1.00" }
      (incrementDailyAccepts Sample.dailyResetStore "t-day" "2018-07-19") rfl (by decide)
      Sample.dailyReset).2.2 (by decide) (by decide)⟩

/-! ## Expiry -/

/-- C17: `incrementDailyAccepts(targetId, date)` leaves the counter key of
(targetId, date) with the time-to-live `EXPIRE_SECONDS`, which is 86400 seconds
or 24 hours, whether the call creates the counter or increments it; the last
write of the call is the EXPIRE of that key; and on a client whose commands may
fail, every call that completes leaves that time-to-live. -/
theorem incrementDailyAccepts_ttl (redis : Redis) (targetId date : String) :
    (incrementDailyAccepts redis targetId date).ttl (getAcceptsKey targetId date)
        = some 86400 ∧
      EXPIRE_SECONDS = 24 * 60 * 60 ∧
      (incrementDailyAccepts redis targetId date).writes
        = redis.writes ++ [RedisWrite.incr (getAcceptsKey targetId date),
            RedisWrite.expire (getAcceptsKey targetId date) 86400] ∧
      ∀ (faults : Faults) (after : Redis),
        Faulty.incrementDailyAccepts faults redis targetId date = (Except.ok (), after) →
        after.ttl (getAcceptsKey targetId date) = some 86400 ∧
          after.counters (getAcceptsKey targetId date)
            = some ((redis.counters (getAcceptsKey targetId date)).getD 0 + 1) := by
  have hkey : (redis.incr (getAcceptsKey targetId date)).hasKey (getAcceptsKey targetId date)
      = true := by
    unfold Redis.hasKey Redis.incr
    cases redis.counters (getAcceptsKey targetId date) <;> simp
  have hpure : (incrementDailyAccepts redis targetId date).ttl (getAcceptsKey targetId date)
      = some 86400 := by
    unfold incrementDailyAccepts
    simp only [Redis.expire, hkey, and_self, if_true]
    rfl
  refine ⟨hpure, rfl, ?_, ?_⟩
  · simp [incrementDailyAccepts, Redis.expire, Redis.incr, EXPIRE_SECONDS]
  · intro faults after hrun
    unfold Faulty.incrementDailyAccepts at hrun
    simp only [] at hrun
    cases h1 : faults.fails (RedisCommand.incr (getAcceptsKey targetId date)) with
    | some e => simp [h1] at hrun
    | none =>
      cases h2 : faults.fails (RedisCommand.expire (getAcceptsKey targetId date)
          EXPIRE_SECONDS) with
      | some e => simp [h1, h2] at hrun
      | none =>
        simp only [h1, h2, Prod.mk.injEq, true_and] at hrun
        subst hrun
        have hsame : (redis.incr (getAcceptsKey targetId date)).expire
            (getAcceptsKey targetId date) EXPIRE_SECONDS
              = incrementDailyAccepts redis targetId date := rfl
        rw [hsame]
        refine ⟨hpure, ?_⟩
        rw [incrementDailyAccepts_counters, if_pos rfl]

/-! ## `target-service.js`: the id of a target -/

/-- Two ids with the same record key are equal. -/
theorem getTargetKey_injective (i j : String) (h : getTargetKey i = getTargetKey j) : i = j := by
  unfold getTargetKey at h
  have hdata := congrArg String.data h
  simp only [String.data_append] at hdata
  exact String.ext (List.append_cancel_left hdata)

/-- C19: for an id under which a record is stored and for every update body,
also one that carries a different id, `updateTarget(id, updates)` returns a
record whose id is the id it was called with, and stores that record under the
record key of that id. -/
theorem updateTarget_keeps_id (redis : Redis) (id : String) (updates : TargetUpdates)
    (existing : Target) (hex : getTargetById redis id = some existing) :
    ∃ updated after, updateTarget redis id updates = (some updated, after) ∧
      updated.id = id ∧
      getTargetById after id = some updated ∧
      after.writes = redis.writes ++ [RedisWrite.set (getTargetKey id) updated] ∧
      ∀ other, other ≠ id → getTargetById after other = getTargetById redis other := by
  unfold updateTarget
  rw [hex]
  refine ⟨_, _, rfl, rfl, ?_, rfl, ?_⟩
  · simp [getTargetById, Redis.getRecord, Redis.set]
  · intro other hne
    have hk : getTargetKey other ≠ getTargetKey id :=
      fun h => hne (getTargetKey_injective _ _ h)
    simp [getTargetById, Redis.getRecord, Redis.set, hk]

/-- Witness of C19: an update of the stored target `t-lim` whose body carries
the id `other-id` returns and stores a record with the id `t-lim`. -/
theorem updateTarget_keeps_id_witness :
    getTargetById Sample.limitedFresh "t-lim" = some Sample.limited ∧
      Sample.updateWithId.id = some "other-id" ∧
      ∃ updated after,
        updateTarget Sample.limitedFresh "t-lim" Sample.updateWithId = (some updated, after) ∧
        updated.id = "t-lim" ∧
        getTargetById after "t-lim" = some updated ∧
        after.writes
          = Sample.limitedFresh.writes ++ [RedisWrite.set (getTargetKey "t-lim") updated] ∧
        ∀ other, other ≠ "t-lim" →
          getTargetById after other = getTargetById Sample.limitedFresh other :=
  ⟨by decide, by decide,
    updateTarget_keeps_id Sample.limitedFresh "t-lim" Sample.updateWithId Sample.limited
      (by decide)⟩

/-- C20 as stated fails: a create body that carries the id of a stored target
gives the new target that very id, and the record of the stored target is
replaced by the new one. -/
theorem createTarget_given_id_counterexample :
    getTargetById Sample.limitedFresh "t-lim" = some Sample.limited ∧
      (createTarget "cuid-1" Sample.limitedFresh Sample.createWithId).1.id = Sample.limited.id ∧
      getTargetById (createTarget "cuid-1" Sample.limitedFresh Sample.createWithId).2 "t-lim"
        ≠ some Sample.limited := by
  decide

/-- C20, amended: `createTarget` gives the new target the id that the body
carries, or the id generated by `cuid()` when the body carries none (or an
empty one); it writes the record of that id only, so the record stored under
every other id is as before; when the id used is not that of a stored record,
the record of every stored target is as before. -/
theorem createTarget_id (cuid : String) (redis : Redis) (targetData : TargetData) :
    ((targetData.id = none ∨ targetData.id = some "") →
        (createTarget cuid redis targetData).1.id = cuid) ∧
      (∀ given, targetData.id = some given → given ≠ "" →
        (createTarget cuid redis targetData).1.id = given) ∧
      getTargetById (createTarget cuid redis targetData).2
          (createTarget cuid redis targetData).1.id
        = some (createTarget cuid redis targetData).1 ∧
      (∀ other, other ≠ (createTarget cuid redis targetData).1.id →
        getTargetById (createTarget cuid redis targetData).2 other
          = getTargetById redis other) ∧
      (getTargetById redis (createTarget cuid redis targetData).1.id = none →
        ∀ stored existing, getTargetById redis stored = some existing →
          stored ≠ (createTarget cuid redis targetData).1.id ∧
            getTargetById (createTarget cuid redis targetData).2 stored = some existing) := by
  have hother : ∀ other, other ≠ (createTarget cuid redis targetData).1.id →
      getTargetById (createTarget cuid redis targetData).2 other
        = getTargetById redis other := by
    intro other hne
    have hk : getTargetKey other ≠ getTargetKey (createTarget cuid redis targetData).1.id :=
      fun h => hne (getTargetKey_injective _ _ h)
    simp only [createTarget] at hk ⊢
    simp [getTargetById, Redis.getRecord, Redis.set, Redis.sadd, hk]
  refine ⟨?_, ?_, ?_, hother, ?_⟩
  · rintro (h | h) <;> simp [createTarget, h]
  · intro given h hne
    simp [createTarget, h, hne]
  · simp [createTarget, getTargetById, Redis.getRecord, Redis.set]
  · intro hfree stored existing hstored
    have hne : stored ≠ (createTarget cuid redis targetData).1.id := by
      intro heq
      rw [heq, hfree] at hstored
      exact Option.noConfusion hstored
    exact ⟨hne, by rw [hother stored hne, hstored]⟩

/-! ## Sequential calls and the daily quota -/

/-- The operator `<` on two natural numbers. -/
theorem JSNumber.lt_ofNat (a b : Nat) :
    JSNumber.lt (JSNumber.ofNat a) (JSNumber.ofNat b) = decide (a < b) := by
  simp [JSNumber.lt, JSNumber.ofNat]

/-- The number that `getDailyAccepts` reads. -/
theorem getDailyAccepts_eq (redis : Redis) (targetId date : String) :
    getDailyAccepts redis targetId date
      = JSNumber.ofNat ((redis.counters (getAcceptsKey targetId date)).getD 0) := by
  unfold getDailyAccepts Redis.get
  cases redis.counters (getAcceptsKey targetId date) <;> rfl

/-- The function `incrementDailyAccepts` leaves the repository as it is. -/
theorem getAllTargets_incrementDailyAccepts (redis : Redis) (targetId date : String) :
    getAllTargets (incrementDailyAccepts redis targetId date) = getAllTargets redis := rfl

/-- One call on a repository that holds the single target `T`, for a visit that
the rules of `T` accept: accept while the counter is below the ceiling,
reject from then on. -/
theorem routeVisitor_single_target (js : Builtins) (redis : Redis) (T : Target) (N c : Nat)
    (visit : Visit) (hrepo : getAllTargets redis = [T])
    (hmax : js.parseInt T.maxAcceptsPerDay = JSNumber.ofNat N)
    (hc : (redis.counters (getAcceptsKey T.id visit.dateKey)).getD 0 = c)
    (hrule : isTargetEligible js T visit.geoState visit.hour = true) :
    routeVisitor js redis visit =
      if c < N then
        Except.ok (Decision.accept { id := T.id, url := T.url, value := T.value },
          incrementDailyAccepts redis T.id visit.dateKey)
      else Except.ok (Decision.reject, redis) := by
  rw [routeVisitor_eq, hrepo, filterEligibleTargets_eq_filter]
  have hq : JSNumber.lt (getDailyAccepts redis T.id visit.dateKey)
      (js.parseInt T.maxAcceptsPerDay) = decide (c < N) := by
    rw [getDailyAccepts_eq, hc, hmax, JSNumber.lt_ofNat]
  by_cases hlt : c < N
  · simp [List.filter, hrule, hq, hlt, selectBestTarget]
  · simp [List.filter, hrule, hq, hlt, selectBestTarget]

/-- Sequential calls on a repository that holds the single target `T`, started
with the counter at `c`: the call number `i` accepts iff `c + i` is below the
ceiling. -/
theorem routeVisitors_single_from (js : Builtins) (T : Target) (N : Nat) (d : String) :
    ∀ (visits : List Visit) (redis : Redis) (c : Nat),
      getAllTargets redis = [T] →
      js.parseInt T.maxAcceptsPerDay = JSNumber.ofNat N →
      (redis.counters (getAcceptsKey T.id d)).getD 0 = c →
      (∀ v ∈ visits, v.dateKey = d ∧ isTargetEligible js T v.geoState v.hour = true) →
      ∃ after, routeVisitors js redis visits =
        Except.ok
          ((List.range visits.length).map (fun i =>
              if c + i < N then Decision.accept { id := T.id, url := T.url, value := T.value }
              else Decision.reject),
            after) := by
  intro visits
  induction visits with
  | nil =>
    intro redis c _ _ _ _
    exact ⟨redis, rfl⟩
  | cons v vs ih =>
    intro redis c hrepo hmax hc hvisits
    obtain ⟨hvd, hvrule⟩ := hvisits v (List.mem_cons_self _ _)
    have hrest : ∀ u ∈ vs, u.dateKey = d ∧ isTargetEligible js T u.geoState u.hour = true :=
      fun u hu => hvisits u (List.mem_cons_of_mem _ hu)
    have hstep := routeVisitor_single_target js redis T N c v hrepo hmax (hvd ▸ hc) hvrule
    by_cases hlt : c < N
    · rw [if_pos hlt] at hstep
      have hc1 : ((incrementDailyAccepts redis T.id v.dateKey).counters
          (getAcceptsKey T.id d)).getD 0 = c + 1 := by
        rw [incrementDailyAccepts_counters, hvd, if_pos rfl, hc]
        rfl
      obtain ⟨after, hafter⟩ := ih (incrementDailyAccepts redis T.id v.dateKey) (c + 1)
        (by rw [getAllTargets_incrementDailyAccepts, hrepo]) hmax hc1 hrest
      refine ⟨after, ?_⟩
      simp only [routeVisitors, hstep, hafter, List.length_cons, List.range_succ_eq_map,
        List.map_cons, List.map_map, Nat.add_zero, if_pos hlt]
      have hmap : ∀ l : List Nat,
          l.map (fun i =>
            if c + 1 + i < N then
              Decision.accept { id := T.id, url := T.url, value := T.value }
            else Decision.reject)
          = l.map ((fun i =>
            if c + i < N then
              Decision.accept { id := T.id, url := T.url, value := T.value }
            else Decision.reject) ∘ Nat.succ) := by
        intro l
        apply List.map_congr_left
        intro i _
        simp only [Function.comp, Nat.succ_eq_add_one]
        have : c + 1 + i = c + (i + 1) := by omega
        rw [this]
      rw [hmap]
    · rw [if_neg hlt] at hstep
      obtain ⟨after, hafter⟩ := ih redis c hrepo hmax hc hrest
      refine ⟨after, ?_⟩
      simp only [routeVisitors, hstep, hafter, List.length_cons, List.range_succ_eq_map,
        List.map_cons, List.map_map, Nat.add_zero, if_neg hlt]
      have hmap : ∀ l : List Nat,
          l.map (fun i =>
            if c + i < N then
              Decision.accept { id := T.id, url := T.url, value := T.value }
            else Decision.reject)
          = l.map ((fun i =>
            if c + i < N then
              Decision.accept { id := T.id, url := T.url, value := T.value }
            else Decision.reject) ∘ Nat.succ) := by
        intro l
        apply List.map_congr_left
        intro i _
        simp only [Function.comp, Nat.succ_eq_add_one]
        have h1 : ¬ c + (i + 1) < N := by omega
        have h2 : ¬ c + i < N := by omega
        rw [if_neg h1, if_neg h2]
      rw [hmap]

/-- C11: on a repository that holds the single target `T` with ceiling `N`, and
a store without a counter for `T` on the date, sequential calls of `routeVisitor`
for visits of that UTC date that the rules of `T` accept yield accept for the
first `N` calls and reject for every later call. -/
theorem routeVisitors_single_target (js : Builtins) (redis : Redis) (T : Target) (N : Nat)
    (d : String) (visits : List Visit)
    (hrepo : getAllTargets redis = [T])
    (hmax : js.parseInt T.maxAcceptsPerDay = JSNumber.ofNat N)
    (hfresh : redis.counters (getAcceptsKey T.id d) = none)
    (hvisits : ∀ v ∈ visits, v.dateKey = d ∧ isTargetEligible js T v.geoState v.hour = true) :
    ∃ after, routeVisitors js redis visits =
      Except.ok
        ((List.range visits.length).map (fun i =>
            if i < N then Decision.accept { id := T.id, url := T.url, value := T.value }
            else Decision.reject),
          after) := by
  obtain ⟨after, hafter⟩ := routeVisitors_single_from js T N d visits redis 0 hrepo hmax
    (by rw [hfresh]; rfl) hvisits
  refine ⟨after, ?_⟩
  rw [hafter]
  simp

/-- Witness of C11: the daily-limit test, three visits to a target with two
accepts per day. -/
theorem routeVisitors_single_target_witness :
    getAllTargets Sample.limitedFresh = [Sample.limited] ∧
      ∃ after,
        routeVisitors refBuiltins Sample.limitedFresh
            [Sample.visit14, Sample.visit14, Sample.visit14]
          = Except.ok
            ([Decision.accept { id := "t-lim", url := "http://limited.com", value := "1.00" },
              Decision.accept { id := "t-lim", url := "http://limited.com", value := "1.00" },
              Decision.reject], after) :=
  ⟨by decide,
    routeVisitors_single_target refBuiltins Sample.limitedFresh Sample.limited 2 "2018-07-19"
      [Sample.visit14, Sample.visit14, Sample.visit14] (by decide) (by decide) (by decide)
      (by decide)⟩

/-- One call of `routeVisitor` keeps the repository and the quota invariant,
when the stored targets have distinct ids. -/
theorem routeVisitor_preserves_quota (js : Builtins) (targets : List Target) (redis : Redis)
    (visit : Visit) (decision : Decision) (after : Redis)
    (hrun : routeVisitor js redis visit = Except.ok (decision, after))
    (hrepo : getAllTargets redis = targets)
    (hids : (targets.map (fun t => t.id)).Nodup)
    (hinv : QuotaInv js targets redis) :
    getAllTargets after = targets ∧ QuotaInv js targets after := by
  rcases routeVisitor_cases js redis visit with ⟨_, hrej⟩ | ⟨best, hbest, _, hok⟩
  · rw [hrej] at hrun
    simp only [Except.ok.injEq, Prod.mk.injEq] at hrun
    rw [← hrun.2]
    exact ⟨hrepo, hinv⟩
  · rw [hok] at hrun
    simp only [Except.ok.injEq, Prod.mk.injEq] at hrun
    rw [← hrun.2]
    refine ⟨by rw [getAllTargets_incrementDailyAccepts, hrepo], ?_⟩
    obtain ⟨hmem, _, hquota⟩ := (mem_candidates js redis visit best).mp hbest
    rw [hrepo] at hmem
    intro t ht N hN ts
    rw [incrementDailyAccepts_counters]
    by_cases hkey : getAcceptsKey t.id (Date.isoDate ts) = getAcceptsKey best.id visit.dateKey
    · rw [if_pos hkey]
      obtain ⟨hid, _⟩ := getAcceptsKey_injective_of_no_colon _ _ _ _
        (isoDate_no_colon _) (isoDate_no_colon _) hkey
      have hsame : t = best := List.inj_on_of_nodup_map hids ht hmem hid
      subst hsame
      unfold hasQuota at hquota
      rw [getDailyAccepts_eq, hN, JSNumber.lt_ofNat] at hquota
      have hlt : (redis.counters (getAcceptsKey t.id visit.dateKey)).getD 0 < N := by
        simpa using hquota
      simp only [Option.getD_some]
      omega
    · rw [if_neg hkey]
      exact hinv t ht N hN ts

/-- Sequential calls of `routeVisitor` all return, keep the repository and keep
the quota invariant, when the stored targets have distinct ids. -/
theorem routeVisitors_preserve_quota (js : Builtins) (targets : List Target)
    (hids : (targets.map (fun t => t.id)).Nodup) :
    ∀ (visits : List Visit) (redis : Redis), getAllTargets redis = targets →
      QuotaInv js targets redis →
      ∃ decisions after, routeVisitors js redis visits = Except.ok (decisions, after) ∧
        decisions.length = visits.length ∧
        getAllTargets after = targets ∧ QuotaInv js targets after := by
  intro visits
  induction visits with
  | nil =>
    intro redis hrepo hinv
    exact ⟨[], redis, rfl, rfl, hrepo, hinv⟩
  | cons v vs ih =>
    intro redis hrepo hinv
    have hstep : ∃ decision mid, routeVisitor js redis v = Except.ok (decision, mid) := by
      rcases routeVisitor_cases js redis v with ⟨_, hrej⟩ | ⟨best, _, _, hok⟩
      · exact ⟨_, _, hrej⟩
      · exact ⟨_, _, hok⟩
    obtain ⟨decision, mid, hmid⟩ := hstep
    obtain ⟨hrepo1, hinv1⟩ :=
      routeVisitor_preserves_quota js targets redis v decision mid hmid hrepo hids hinv
    obtain ⟨decisions, after, hafter, hlen, hrepo2, hinv2⟩ := ih mid hrepo1 hinv1
    refine ⟨decision :: decisions, after, ?_, by simp [hlen], hrepo2, hinv2⟩
    simp only [routeVisitors, hmid, hafter]

/-- C12: for stored targets with distinct ids and a counter store that starts
empty, every finite sequence of sequential calls of `routeVisitor` returns, and
after it the counter of every (target, UTC date) pair is at most the ceiling of
the target. -/
theorem routeVisitors_quota_invariant (js : Builtins) (redis : Redis) (visits : List Visit)
    (hempty : ∀ key, redis.counters key = none)
    (hids : ((getAllTargets redis).map (fun t => t.id)).Nodup) :
    ∃ decisions after, routeVisitors js redis visits = Except.ok (decisions, after) ∧
      decisions.length = visits.length ∧
      getAllTargets after = getAllTargets redis ∧
      ∀ t ∈ getAllTargets redis, ∀ N : Nat,
        js.parseInt t.maxAcceptsPerDay = JSNumber.ofNat N →
        ∀ ts : Int, (after.counters (getAcceptsKey t.id (Date.isoDate ts))).getD 0 ≤ N := by
  have hinv : QuotaInv js (getAllTargets redis) redis := by
    intro t _ N _ ts
    rw [hempty]
    exact Nat.zero_le N
  exact routeVisitors_preserve_quota js (getAllTargets redis) hids visits redis rfl hinv

/-- Witness of C12: two stored targets and four visits of one UTC date. -/
theorem routeVisitors_quota_invariant_witness :
    (∀ key, Sample.twoTargets.counters key = none) ∧
      ((getAllTargets Sample.twoTargets).map (fun t => t.id)).Nodup ∧
      ∃ decisions after,
        routeVisitors refBuiltins Sample.twoTargets
            [Sample.visit14, Sample.visit14, Sample.visit14, Sample.visit14]
          = Except.ok (decisions, after) ∧
        decisions.length
          = [Sample.visit14, Sample.visit14, Sample.visit14, Sample.visit14].length ∧
        getAllTargets after = getAllTargets Sample.twoTargets ∧
        ∀ t ∈ getAllTargets Sample.twoTargets, ∀ N : Nat,
          refBuiltins.parseInt t.maxAcceptsPerDay = JSNumber.ofNat N →
          ∀ ts : Int, (after.counters (getAcceptsKey t.id (Date.isoDate ts))).getD 0 ≤ N :=
  ⟨fun _ => rfl, by decide,
    routeVisitors_quota_invariant refBuiltins Sample.twoTargets
      [Sample.visit14, Sample.visit14, Sample.visit14, Sample.visit14]
      (fun _ => rfl) (by decide)⟩

/-! ## Failing commands -/

/-- The loop of `filterEligibleTargets` fails with the error of the first read
that fails. -/
theorem Faulty.filterLoop_error (faults : Faults) (js : Builtins) (redis : Redis)
    (g h d : String) (t : Target) (post : List Target) (e : String)
    (hrule : isTargetEligible js t g h = true)
    (hread : Faulty.getDailyAccepts faults redis t.id d = Except.error e) :
    ∀ (pre eligible : List Target),
      (∀ u ∈ pre, isTargetEligible js u g h = true →
        ∃ n, Faulty.getDailyAccepts faults redis u.id d = Except.ok n) →
      Faulty.filterLoop faults js redis g h d (pre ++ t :: post) eligible = Except.error e := by
  intro pre
  induction pre with
  | nil =>
    intro eligible _
    simp [Faulty.filterLoop, hrule, hread]
  | cons u pre ih =>
    intro eligible hpre
    have hrest : ∀ w ∈ pre, isTargetEligible js w g h = true →
        ∃ n, Faulty.getDailyAccepts faults redis w.id d = Except.ok n :=
      fun w hw => hpre w (List.mem_cons_of_mem _ hw)
    simp only [List.cons_append, Faulty.filterLoop]
    cases hu : isTargetEligible js u g h with
    | false => simpa using ih eligible hrest
    | true =>
      obtain ⟨n, hn⟩ := hpre u (List.mem_cons_self _ _) hu
      simp only [hn, Bool.not_true, Bool.false_eq_true, if_false]
      split
      · exact ih _ hrest
      · exact ih _ hrest

/-- C18: when the repository fetch `getAllTargets` fails with an error, or when
it returns and a counter read `getDailyAccepts` of the loop fails with an error
(the reads before it having returned), `routeVisitor` rejects with that same
error, gives no decision, and leaves the store as it was: no counter is
incremented and no write is sent. -/
theorem Faulty.routeVisitor_failure (faults : Faults) (js : Builtins) (redis : Redis)
    (visit : Visit) :
    (∀ e, Faulty.getAllTargets faults redis = Except.error e →
        Faulty.routeVisitor faults js redis visit = (Except.error e, redis)) ∧
      (∀ pre t post e, Faulty.getAllTargets faults redis = Except.ok (pre ++ t :: post) →
        (∀ u ∈ pre, isTargetEligible js u visit.geoState visit.hour = true →
          ∃ n, Faulty.getDailyAccepts faults redis u.id visit.dateKey = Except.ok n) →
        isTargetEligible js t visit.geoState visit.hour = true →
        Faulty.getDailyAccepts faults redis t.id visit.dateKey = Except.error e →
        Faulty.routeVisitor faults js redis visit = (Except.error e, redis)) := by
  constructor
  · intro e hfetch
    simp [Faulty.routeVisitor, hfetch]
  · intro pre t post e hfetch hpre hrule hread
    have hloop := Faulty.filterLoop_error faults js redis visit.geoState visit.hour
      visit.dateKey t post e hrule hread pre [] hpre
    have hlen : ¬ (pre ++ t :: post).length = 0 := by simp
    unfold Faulty.routeVisitor
    simp only [hfetch, hlen, if_false, Faulty.filterEligibleTargets]
    unfold Visit.hour Visit.dateKey at hloop
    rw [hloop]

/-- Witness of C18: the read of the one counter fails with ECONNRESET, and so
does the call, on the unchanged store. -/
theorem Faulty.routeVisitor_failure_witness :
    Faulty.getAllTargets Sample.counterDown Sample.limitedFresh = Except.ok [Sample.limited] ∧
      Faulty.getDailyAccepts Sample.counterDown Sample.limitedFresh "t-lim" "2018-07-19"
        = Except.error "ECONNRESET" ∧
      Faulty.routeVisitor Sample.counterDown refBuiltins Sample.limitedFresh Sample.visit14
        = (Except.error "ECONNRESET", Sample.limitedFresh) ∧
      Faulty.routeVisitor Sample.redisDown refBuiltins Sample.limitedFresh Sample.visit14
        = (Except.error "ECONNREFUSED", Sample.limitedFresh) :=
  ⟨rfl, rfl,
    (Faulty.routeVisitor_failure Sample.counterDown refBuiltins Sample.limitedFresh
      Sample.visit14).2 [] Sample.limited [] "ECONNRESET" rfl (by simp) (by decide) rfl,
    (Faulty.routeVisitor_failure Sample.redisDown refBuiltins Sample.limitedFresh
      Sample.visit14).1 "ECONNREFUSED" rfl⟩

/-- All promises fulfilled: `Promise.all` gives the values in order. -/
theorem promiseAll_all_ok {α β : Type} (f : α → β) (l : List α) :
    Faulty.promiseAll (l.map (fun a => (Except.ok (f a) : Except String β)))
      = Except.ok (l.map f) := by
  induction l with
  | nil => rfl
  | cons a l ih => simp [Faulty.promiseAll, ih]

/-- On the client on which no command fails, `getAllTargets` returns what it
returns as a function of the store. -/
theorem faulty_getAllTargets_none (redis : Redis) :
    Faulty.getAllTargets Faults.none redis = Except.ok (getAllTargets redis) := by
  unfold Faulty.getAllTargets Faulty.smembersAsync getAllTargets
  simp only [Faults.none]
  split_ifs with h0
  · rfl
  · have hmap : (redis.smembers TARGET_SET_KEY).map
        (fun id => Faulty.getRecordAsync Faults.none redis (getTargetKey id))
        = (redis.smembers TARGET_SET_KEY).map
            (fun id => (Except.ok (redis.getRecord (getTargetKey id)) :
              Except String (Option Target))) := rfl
    have hall := promiseAll_all_ok (fun id => redis.getRecord (getTargetKey id))
      (redis.smembers TARGET_SET_KEY)
    change (match Faulty.promiseAll ((redis.smembers TARGET_SET_KEY).map
        (fun id => Faulty.getRecordAsync Faults.none redis (getTargetKey id))) with
      | Except.error e => Except.error e
      | Except.ok targets => Except.ok (targets.filterMap (fun t => t))) = _
    rw [hmap, hall]

/-- On the client on which no command fails, `routeVisitor` gives the decision
and the store that it gives as a function of the store. -/
theorem faulty_routeVisitor_none (js : Builtins) (redis : Redis) (visit : Visit)
    (decision : Decision) (after : Redis)
    (h : routeVisitor js redis visit = Except.ok (decision, after)) :
    Faulty.routeVisitor Faults.none js redis visit = (Except.ok decision, after) := by
  unfold Faulty.routeVisitor Faulty.filterEligibleTargets
  unfold routeVisitor filterEligibleTargets at h
  simp only [faulty_getAllTargets_none,
    faulty_filterLoop_reads_ok Faults.none js redis _ _ _ (fun _ => rfl)] at h ⊢
  split_ifs at h ⊢ with h0 h1
  · simp only [Except.ok.injEq, Prod.mk.injEq] at h
    rw [← h.1, ← h.2]
  · simp only [Except.ok.injEq, Prod.mk.injEq] at h
    rw [← h.1, ← h.2]
  · split at h
    · simp at h
    · next best hbest =>
      simp only [Except.ok.injEq, Prod.mk.injEq] at h
      simp only [Faulty.incrementDailyAccepts, Faults.none]
      rw [← h.1, ← h.2]
      rfl

/-! ## `target-service.js`: update, lookup and round trip -/

/-- C23: for an id under which a record is stored and for every update body,
`updateTarget` changes only the members the body mentions: each of url, value,
maxAcceptsPerDay and accept that the body does not mention is in the returned
and stored record as it was, each one it mentions is taken from the body, and
the record of every other id, the target set and the counters are as before. -/
theorem updateTarget_frame (redis : Redis) (id : String) (updates : TargetUpdates)
    (existing : Target) (hex : getTargetById redis id = some existing) :
    ∃ updated after, updateTarget redis id updates = (some updated, after) ∧
      getTargetById after id = some updated ∧
      (updates.url = none → updated.url = existing.url) ∧
      (updates.value = none → updated.value = existing.value) ∧
      (updates.maxAcceptsPerDay = none →
        updated.maxAcceptsPerDay = existing.maxAcceptsPerDay) ∧
      (updates.accept = none → updated.accept = existing.accept) ∧
      (∀ u, updates.url = some u → updated.url = u) ∧
      (∀ v, updates.value = some v → updated.value = v) ∧
      (∀ m, updates.maxAcceptsPerDay = some m → updated.maxAcceptsPerDay = m) ∧
      (∀ a, updates.accept = some a → updated.accept = some a) ∧
      (∀ other, other ≠ id → getTargetById after other = getTargetById redis other) ∧
      after.sets = redis.sets ∧ after.counters = redis.counters := by
  unfold updateTarget
  rw [hex]
  refine ⟨_, _, rfl, ?_, ?_, ?_, ?_, ?_, ?_, ?_, ?_, ?_, ?_, rfl, rfl⟩
  · simp [getTargetById, Redis.getRecord, Redis.set]
  · intro h; simp [h]
  · intro h; simp [h]
  · intro h; simp [h]
  · intro h; simp [h]
  · intro u h; simp [h]
  · intro v h; simp [h]
  · intro m h; simp [h]
  · intro a h; simp [h]
  · intro other hne
    have hk : getTargetKey other ≠ getTargetKey id :=
      fun h => hne (getTargetKey_injective _ _ h)
    simp [getTargetById, Redis.getRecord, Redis.set, hk]

/-- Witness of C23: the partial-update kind of body, a new value alone, on the
stored target `t-lim`. -/
theorem updateTarget_frame_witness :
    getTargetById Sample.limitedFresh "t-lim" = some Sample.limited ∧
      (updateTarget Sample.limitedFresh "t-lim" Sample.updateWithId).1
        = some { Sample.limited with value := "3.00" } ∧
      ∃ updated after,
        updateTarget Sample.limitedFresh "t-lim" Sample.updateWithId = (some updated, after) ∧
        getTargetById after "t-lim" = some updated ∧
        (Sample.updateWithId.url = none → updated.url = Sample.limited.url) ∧
        (Sample.updateWithId.value = none → updated.value = Sample.limited.value) ∧
        (Sample.updateWithId.maxAcceptsPerDay = none →
          updated.maxAcceptsPerDay = Sample.limited.maxAcceptsPerDay) ∧
        (Sample.updateWithId.accept = none → updated.accept = Sample.limited.accept) ∧
        (∀ u, Sample.updateWithId.url = some u → updated.url = u) ∧
        (∀ v, Sample.updateWithId.value = some v → updated.value = v) ∧
        (∀ m, Sample.updateWithId.maxAcceptsPerDay = some m → updated.maxAcceptsPerDay = m) ∧
        (∀ a, Sample.updateWithId.accept = some a → updated.accept = some a) ∧
        (∀ other, other ≠ "t-lim" →
          getTargetById after other = getTargetById Sample.limitedFresh other) ∧
        after.sets = Sample.limitedFresh.sets ∧
        after.counters = Sample.limitedFresh.counters :=
  ⟨by decide, by decide,
    updateTarget_frame Sample.limitedFresh "t-lim" Sample.updateWithId Sample.limited
      (by decide)⟩

/-- C24: for an id without a stored record, `getTargetById` returns `null`, and
`updateTarget` returns `null` for every body and leaves the store as it was; the
two controllers, once past their own checks, throw the 404 error with the
message Target not found. -/
theorem missing_target_not_found (redis : Redis) (id : String)
    (hmiss : redis.records (getTargetKey id) = none) :
    getTargetById redis id = none ∧
      (∀ updates, updateTarget redis id updates = (none, redis)) ∧
      (id ≠ "" →
        TargetController.getTargetById redis id
          = (Except.error (throwHttpError "Target not found" 404), redis)) ∧
      (∀ (js : Builtins) (body : TargetBody), id ≠ "" →
        (body.value = JSValue.undefined ∨ isNumeric js body.value = true) →
        (body.maxAcceptsPerDay = JSValue.undefined ∨
          isInteger js body.maxAcceptsPerDay = true) →
        TargetController.updateTarget js redis id body
          = (Except.error (throwHttpError "Target not found" 404), redis)) ∧
      onError (throwHttpError "Target not found" 404) = 404 := by
  have hget : getTargetById redis id = none := hmiss
  refine ⟨hget, ?_, ?_, ?_, rfl⟩
  · intro updates
    simp [updateTarget, hget]
  · intro hid
    simp [TargetController.getTargetById, hid, hget]
  · intro js body hid hv hm
    have h1 : ¬ (body.value ≠ JSValue.undefined ∧ (!isNumeric js body.value) = true) := by
      rintro ⟨hne, hnot⟩
      rcases hv with hv | hv
      · exact hne hv
      · simp [hv] at hnot
    have h2 : ¬ (body.maxAcceptsPerDay ≠ JSValue.undefined ∧
        (!isInteger js body.maxAcceptsPerDay) = true) := by
      rintro ⟨hne, hnot⟩
      rcases hm with hm | hm
      · exact hne hm
      · simp [hm] at hnot
    simp only [TargetController.updateTarget, hid, if_false, if_neg h1, if_neg h2, updateTarget,
      hget]

/-- Witness of C24: the id `nonexistent` of the tests on the flushed store. -/
theorem missing_target_not_found_witness :
    Redis.empty.records (getTargetKey "nonexistent") = none ∧
      TargetController.getTargetById Redis.empty "nonexistent"
        = (Except.error (throwHttpError "Target not found" 404), Redis.empty) :=
  ⟨rfl, (missing_target_not_found Redis.empty "nonexistent" rfl).2.2.1 (by decide)⟩

/-- C25: `createTarget` returns a record with the url, value and
maxAcceptsPerDay of the body and with the accept of the body, or the empty rule
set when the body has none, and `getTargetById` on the id of that record then
yields that record. -/
theorem createTarget_roundtrip (cuid : String) (redis : Redis) (targetData : TargetData) :
    (createTarget cuid redis targetData).1.url = targetData.url ∧
      (createTarget cuid redis targetData).1.value = targetData.value ∧
      (createTarget cuid redis targetData).1.maxAcceptsPerDay = targetData.maxAcceptsPerDay ∧
      (∀ a, targetData.accept = some a → (createTarget cuid redis targetData).1.accept = some a) ∧
      (targetData.accept = none →
        (createTarget cuid redis targetData).1.accept = some Accept.empty) ∧
      getTargetById (createTarget cuid redis targetData).2
          (createTarget cuid redis targetData).1.id
        = some (createTarget cuid redis targetData).1 ∧
      (createTarget cuid redis targetData).1.id
        ∈ (createTarget cuid redis targetData).2.smembers TARGET_SET_KEY := by
  refine ⟨rfl, rfl, rfl, ?_, ?_, ?_, ?_⟩
  · intro a h
    simp [createTarget, h]
  · intro h
    simp [createTarget, h]
  · simp [createTarget, getTargetById, Redis.getRecord, Redis.set]
  · simp only [createTarget, Redis.smembers, Redis.set, Redis.sadd, if_true]
    split_ifs with h
    · exact h
    · simp

/-! ## The target controllers -/

/-- The check `isNumeric` passes on exactly the inputs that `parseFloat` reads
as a finite number that is not negative. -/
theorem isNumeric_iff (js : Builtins) (val : JSValue) :
    isNumeric js val = true ↔ ∃ q : ℚ, 0 ≤ q ∧ js.parseFloat val.toText = JSNumber.fin q := by
  unfold isNumeric
  cases js.parseFloat val.toText <;>
    simp [JSNumber.isNumber, JSNumber.isFinite, JSNumber.ge, JSNumber.lt, JSNumber.ofNat]

/-- The check `isInteger` passes on exactly the inputs that `parseFloat` reads
as a natural number. -/
theorem isInteger_iff (js : Builtins) (val : JSValue) :
    isInteger js val = true ↔ ∃ n : Nat, js.parseFloat val.toText = JSNumber.ofNat n := by
  unfold isInteger
  cases hnum : js.parseFloat val.toText with
  | nan => simp [JSNumber.isNumber, JSNumber.isInteger, JSNumber.ofNat]
  | negInf => simp [JSNumber.isNumber, JSNumber.isInteger, JSNumber.ofNat, JSNumber.ge]
  | posInf => simp [JSNumber.isNumber, JSNumber.isInteger, JSNumber.ofNat, JSNumber.ge]
  | fin q =>
    simp only [JSNumber.isInteger, JSNumber.isNumber, JSNumber.ge, JSNumber.lt, JSNumber.ofNat,
      Bool.and_true, Bool.and_eq_true, decide_eq_true_eq, Bool.not_eq_true',
      decide_eq_false_iff_not, not_lt, JSNumber.fin.injEq, Nat.cast_zero]
    constructor
    · rintro ⟨hden, hnonneg⟩
      have hq : ((q.num : Int) : ℚ) = q := Rat.coe_int_num_of_den_eq_one hden
      have hnum0 : 0 ≤ q.num := Rat.num_nonneg.mpr hnonneg
      refine ⟨q.num.toNat, ?_⟩
      rw [← hq]
      have : ((q.num.toNat : Int)) = q.num := Int.toNat_of_nonneg hnum0
      exact_mod_cast this.symm
    · rintro ⟨n, hn⟩
      subst hn
      exact ⟨Rat.den_natCast n, Nat.cast_nonneg n⟩

/-- C21: a record that the create controller writes has a value that
`parseFloat` reads as a finite number that is not negative and a
maxAcceptsPerDay that it reads as a natural number, and so has a record that the
update controller writes over a record that had; a body whose value is not read
so (negative, NaN or infinite), or whose maxAcceptsPerDay is not read as a
natural number (negative, fractional or NaN), is rejected by the create
controller with status 400, and by the update controller when it carries that
member, and the store is left as it was. -/
theorem targetController_numbers (js : Builtins) (cuid : String) (redis : Redis)
    (id : String) (body : TargetBody) :
    (∀ target after, TargetController.createTarget js cuid redis body = (Except.ok target, after) →
        (∃ q : ℚ, 0 ≤ q ∧ js.parseFloat target.value = JSNumber.fin q) ∧
        (∃ n : Nat, js.parseFloat target.maxAcceptsPerDay = JSNumber.ofNat n) ∧
        getTargetById after target.id = some target) ∧
      (∀ existing target after, getTargetById redis id = some existing →
        (∃ q : ℚ, 0 ≤ q ∧ js.parseFloat existing.value = JSNumber.fin q) →
        (∃ n : Nat, js.parseFloat existing.maxAcceptsPerDay = JSNumber.ofNat n) →
        TargetController.updateTarget js redis id body = (Except.ok target, after) →
        (∃ q : ℚ, 0 ≤ q ∧ js.parseFloat target.value = JSNumber.fin q) ∧
        (∃ n : Nat, js.parseFloat target.maxAcceptsPerDay = JSNumber.ofNat n) ∧
        getTargetById after id = some target) ∧
      (((¬ ∃ q : ℚ, 0 ≤ q ∧ js.parseFloat body.value.toText = JSNumber.fin q) ∨
          (¬ ∃ n : Nat, js.parseFloat body.maxAcceptsPerDay.toText = JSNumber.ofNat n)) →
        ∃ e, TargetController.createTarget js cuid redis body = (Except.error e, redis) ∧
          onError e = 400) ∧
      (((body.value ≠ JSValue.undefined ∧
            ¬ ∃ q : ℚ, 0 ≤ q ∧ js.parseFloat body.value.toText = JSNumber.fin q) ∨
          (body.maxAcceptsPerDay ≠ JSValue.undefined ∧
            ¬ ∃ n : Nat, js.parseFloat body.maxAcceptsPerDay.toText = JSNumber.ofNat n)) →
        ∃ e, TargetController.updateTarget js redis id body = (Except.error e, redis) ∧
          onError e = 400) := by
  refine ⟨?_, ?_, ?_, ?_⟩
  · intro target after hrun
    unfold TargetController.createTarget at hrun
    split_ifs at hrun with h1 h2 h3
    · simp at hrun
    · simp at hrun
    · simp at hrun
    · simp only [Prod.mk.injEq, Except.ok.injEq] at hrun
      obtain ⟨ht, ha⟩ := hrun
      subst ht
      subst ha
      refine ⟨?_, ?_, ?_⟩
      · have := (isNumeric_iff js body.value).mp (by simpa using h2)
        simpa [createTarget, TargetBody.toTargetData] using this
      · have := (isInteger_iff js body.maxAcceptsPerDay).mp (by simpa using h3)
        simpa [createTarget, TargetBody.toTargetData] using this
      · simp [createTarget, getTargetById, Redis.getRecord, Redis.set]
  · intro existing target after hex hval hmax hrun
    unfold TargetController.updateTarget at hrun
    split_ifs at hrun with h0 h1 h2
    · simp at hrun
    · simp at hrun
    · simp at hrun
    · simp only [updateTarget, hex] at hrun
      simp only [Prod.mk.injEq, Except.ok.injEq] at hrun
      obtain ⟨ht, ha⟩ := hrun
      subst ht
      subst ha
      refine ⟨?_, ?_, ?_⟩
      · by_cases hv : body.value = JSValue.undefined
        · simpa [TargetBody.toTargetUpdates, hv] using hval
        · have hok : isNumeric js body.value = true := by
            by_contra hnot
            exact h1 ⟨hv, by simpa using hnot⟩
          have := (isNumeric_iff js body.value).mp hok
          simpa [TargetBody.toTargetUpdates, hv] using this
      · by_cases hm : body.maxAcceptsPerDay = JSValue.undefined
        · simpa [TargetBody.toTargetUpdates, hm] using hmax
        · have hok : isInteger js body.maxAcceptsPerDay = true := by
            by_contra hnot
            exact h2 ⟨hm, by simpa using hnot⟩
          have := (isInteger_iff js body.maxAcceptsPerDay).mp hok
          simpa [TargetBody.toTargetUpdates, hm] using this
      · simp [getTargetById, Redis.getRecord, Redis.set]
  · intro hbad
    unfold TargetController.createTarget
    split_ifs with h1 h2 h3
    · exact ⟨_, rfl, rfl⟩
    · exact ⟨_, rfl, rfl⟩
    · exact ⟨_, rfl, rfl⟩
    · exfalso
      rcases hbad with hb | hb
      · exact hb ((isNumeric_iff js body.value).mp (by simpa using h2))
      · exact hb ((isInteger_iff js body.maxAcceptsPerDay).mp (by simpa using h3))
  · intro hbad
    unfold TargetController.updateTarget
    split_ifs with h0 h1 h2
    · exact ⟨_, rfl, rfl⟩
    · exact ⟨_, rfl, rfl⟩
    · exact ⟨_, rfl, rfl⟩
    · exfalso
      rcases hbad with ⟨hne, hb⟩ | ⟨hne, hb⟩
      · apply hb
        apply (isNumeric_iff js body.value).mp
        by_contra hnot
        exact h1 ⟨hne, by simpa using hnot⟩
      · apply hb
        apply (isInteger_iff js body.maxAcceptsPerDay).mp
        by_contra hnot
        exact h2 ⟨hne, by simpa using hnot⟩

/-- C21 on the bodies of the tests: the body with the value -1.00 is rejected
with status 400 on the empty store, and the record written for the body with
the value 0 is read as the number 0 and the ceiling 10. -/
theorem targetController_numbers_witness :
    ((¬ ∃ q : ℚ, 0 ≤ q ∧
          refBuiltins.parseFloat Sample.negativeValueBody.value.toText = JSNumber.fin q) ∧
        ∃ e, TargetController.createTarget refBuiltins "cuid-1" Redis.empty
            Sample.negativeValueBody = (Except.error e, Redis.empty) ∧ onError e = 400) ∧
      ((∃ q : ℚ, 0 ≤ q ∧ refBuiltins.parseFloat "0" = JSNumber.fin q) ∧
        (∃ n : Nat, refBuiltins.parseFloat "10" = JSNumber.ofNat n) ∧
        getTargetById
            (TargetController.createTarget refBuiltins "cuid-1" Redis.empty
              Sample.zeroStringBody).2 "cuid-1"
          = some { id := "cuid-1", url := "https://example.com", value := "0",
                   maxAcceptsPerDay := "10", accept := some Accept.empty }) :=
  have hneg : ¬ ∃ q : ℚ, 0 ≤ q ∧
      refBuiltins.parseFloat Sample.negativeValueBody.value.toText = JSNumber.fin q :=
    fun h => absurd ((isNumeric_iff refBuiltins Sample.negativeValueBody.value).mpr h)
      (by decide)
  ⟨⟨hneg,
      (targetController_numbers refBuiltins "cuid-1" Redis.empty "cuid-1"
        Sample.negativeValueBody).2.2.1 (Or.inl hneg)⟩,
    (targetController_numbers refBuiltins "cuid-1" Redis.empty "cuid-1"
      Sample.zeroStringBody).1
      { id := "cuid-1", url := "https://example.com", value := "0",
        maxAcceptsPerDay := "10", accept := some Accept.empty }
      (TargetController.createTarget refBuiltins "cuid-1" Redis.empty
        Sample.zeroStringBody).2 rfl⟩

/-- C22, at the failing input: the create controller rejects the body whose
value is the JSON number 0 with status 400 and the message about missing
fields, although `isNumeric` passes on that value; the same body with the value
as the string 0 is accepted and stored as given. -/
theorem createTarget_zero_number_rejected :
    Sample.zeroNumberBody.value ≠ JSValue.undefined ∧
      isNumeric refBuiltins Sample.zeroNumberBody.value = true ∧
      isInteger refBuiltins Sample.zeroNumberBody.maxAcceptsPerDay = true ∧
      TargetController.createTarget refBuiltins "cuid-1" Redis.empty Sample.zeroNumberBody
        = (Except.error
            (throwHttpError "Missing required fields: url, value, and maxAcceptsPerDay" 400),
          Redis.empty) ∧
      (TargetController.createTarget refBuiltins "cuid-1" Redis.empty Sample.zeroStringBody).1
        = Except.ok
          { id := "cuid-1", url := "https://example.com", value := "0",
            maxAcceptsPerDay := "10", accept := some Accept.empty } :=
  ⟨by decide, by decide, by decide, rfl, rfl⟩

/-! ## The route controller -/

/-- C26: the route controller throws an error of status 400, whatever the
service it would call, and leaves the store as it was, when the body lacks
`geoState` or `timestamp` (the member is missing or falsy) or its timestamp is
not a valid date: the decision engine is then not invoked.  For every other
body it sends the decision to which the call of the engine settles, on the
store that call leaves, and throws on the error of a call that fails. -/
theorem routeController_validation (newDate : JSValue → Option Int)
    (routeService : VisitorData → Redis → Except String Decision × Redis)
    (redis : Redis) (visitorData : VisitorData) :
    ((visitorData.geoState.truthy = false ∨ visitorData.timestamp.truthy = false ∨
          newDate visitorData.timestamp = none) →
        ∃ e, onError e = 400 ∧
          ∀ service : VisitorData → Redis → Except String Decision × Redis,
            RouteController.routeVisitor newDate service redis visitorData
              = (Except.error e, redis)) ∧
      (visitorData.geoState.truthy = true → visitorData.timestamp.truthy = true →
        newDate visitorData.timestamp ≠ none →
        (∀ decision after, routeService visitorData redis = (Except.ok decision, after) →
          RouteController.routeVisitor newDate routeService redis visitorData
            = (Except.ok decision, after)) ∧
        (∀ e after, routeService visitorData redis = (Except.error e, after) →
          RouteController.routeVisitor newDate routeService redis visitorData
            = (Except.error { message := e, statusCode := none }, after))) := by
  constructor
  · intro hbad
    by_cases hmiss : (!visitorData.geoState.truthy || !visitorData.timestamp.truthy) = true
    · refine ⟨throwHttpError "Missing required fields: geoState and timestamp" 400, rfl, ?_⟩
      intro service
      simp only [RouteController.routeVisitor, hmiss, if_true]
    · have hdate : newDate visitorData.timestamp = none := by
        rcases hbad with h | h | h
        · simp [h] at hmiss
        · simp [h] at hmiss
        · exact h
      refine ⟨throwHttpError "Invalid timestamp format. Must be a valid date string." 400,
        rfl, ?_⟩
      intro service
      simp [RouteController.routeVisitor, hmiss, isValidTimestamp, hdate]
  · intro hg ht hd
    have hsome : (newDate visitorData.timestamp).isSome = true :=
      Option.isSome_iff_ne_none.mpr hd
    constructor
    · intro decision after hrun
      simp [RouteController.routeVisitor, hg, ht, isValidTimestamp, hsome, hrun]
    · intro e after hrun
      simp [RouteController.routeVisitor, hg, ht, isValidTimestamp, hsome, hrun]

/-- C26 on the bodies of the tests: the body with the timestamp that is not a
date gets the 400 error whatever the service, and the body of a visit gets the
decision of the engine. -/
theorem routeController_validation_witness :
    (Ref.newDate Sample.visitorDataInvalid.timestamp = none ∧
        ∃ e, onError e = 400 ∧
          ∀ service : VisitorData → Redis → Except String Decision × Redis,
            RouteController.routeVisitor Ref.newDate service Sample.limitedFresh
                Sample.visitorDataInvalid
              = (Except.error e, Sample.limitedFresh)) ∧
      (Sample.visitorData14.geoState.truthy = true ∧
        Sample.visitorData14.timestamp.truthy = true ∧
        Ref.newDate Sample.visitorData14.timestamp ≠ none ∧
        RouteController.routeVisitor Ref.newDate
            (routeServiceOn refBuiltins Ref.newDate Faults.none)
            Sample.limitedFresh Sample.visitorData14
          = (Except.ok
              (Decision.accept { id := "t-lim", url := "http://limited.com", value := "1.00" }),
            incrementDailyAccepts Sample.limitedFresh "t-lim" "2018-07-19")) :=
  ⟨⟨by decide,
      (routeController_validation Ref.newDate
        (routeServiceOn refBuiltins Ref.newDate Faults.none) Sample.limitedFresh
        Sample.visitorDataInvalid).1 (Or.inr (Or.inr (by decide)))⟩,
    by decide, by decide, by decide,
    ((routeController_validation Ref.newDate
        (routeServiceOn refBuiltins Ref.newDate Faults.none) Sample.limitedFresh
        Sample.visitorData14).2 (by decide) (by decide) (by decide)).1 _ _ rfl⟩

/-- The route controller on the bodies of the tests: the decision of the engine
for the visit of a stored target, and the 400 error for a timestamp that is not
a date. -/
theorem routeController_tests :
    RouteController.routeVisitor Ref.newDate (routeServiceOn refBuiltins Ref.newDate Faults.none)
        Sample.limitedFresh Sample.visitorData14
      = (Except.ok
          (Decision.accept { id := "t-lim", url := "http://limited.com", value := "1.00" }),
        incrementDailyAccepts Sample.limitedFresh "t-lim" "2018-07-19") ∧
      RouteController.routeVisitor Ref.newDate
          (routeServiceOn refBuiltins Ref.newDate Faults.none)
          Sample.limitedFresh Sample.visitorDataInvalid
        = (Except.error
            (throwHttpError "Invalid timestamp format. Must be a valid date string." 400),
          Sample.limitedFresh) :=
  ⟨rfl, rfl⟩

/-! ## The ceiling as the validator and as the engine read it -/

/-- C29, at the failing input: for the text `1e3` the check `isInteger` of the
controller passes, reading 1000 with `parseFloat`, while `parseInt` base 10
reads 1; the create controller stores the target, and after one accept of the
day the quota test of the engine excludes it. -/
theorem ceiling_exponent_mismatch :
    isInteger refBuiltins (JSValue.string "1e3") = true ∧
      refBuiltins.parseFloat "1e3" = JSNumber.ofNat 1000 ∧
      refBuiltins.parseInt "1e3" = JSNumber.ofNat 1 ∧
      (TargetController.createTarget refBuiltins "cuid-1" Redis.empty Sample.exponentBody).1
        = Except.ok Sample.exponentTarget ∧
      Sample.exponentOnce.get (getAcceptsKey "cuid-1" "2018-07-19") = some 1 ∧
      hasQuota refBuiltins Sample.exponentOnce Sample.exponentTarget "2018-07-19" = false ∧
      routeVisitor refBuiltins Sample.exponentOnce Sample.visit14
        = Except.ok (Decision.reject, Sample.exponentOnce) :=
  ⟨by decide, by decide, by decide, rfl, by decide, by decide, rfl⟩

/-! ## Record keys and counter keys -/

/-- C30 as stated fails: the create body that carries the id
`t-lim:accepts:2018-07-19` is stored under that id, and the record key of that
id is the counter key of the target `t-lim` on 2018-07-19. -/
theorem record_key_counter_key_counterexample :
    (createTarget "cuid-1" Sample.limitedFresh Sample.counterLikeId).1.id
        = "t-lim:accepts:2018-07-19" ∧
      getTargetById (createTarget "cuid-1" Sample.limitedFresh Sample.counterLikeId).2
          "t-lim:accepts:2018-07-19"
        = some (createTarget "cuid-1" Sample.limitedFresh Sample.counterLikeId).1 ∧
      getAcceptsKey "t-lim" "2018-07-19" = getTargetKey "t-lim:accepts:2018-07-19" := by
  decide

/-- C30, amended: the counter key of (j, d) is the record key of the id i
exactly when i is j followed by `:accepts:` and d; so for every id i without a
colon the record key of i differs from every counter key. -/
theorem record_key_counter_key (i j d : String) :
    (getAcceptsKey j d = getTargetKey i ↔ i = j ++ ":accepts:" ++ d) ∧
      (':' ∉ i.data → getAcceptsKey j d ≠ getTargetKey i) := by
  have hiff : getAcceptsKey j d = getTargetKey i ↔ i = j ++ ":accepts:" ++ d := by
    unfold getAcceptsKey getTargetKey
    constructor
    · intro h
      have hdata := congrArg String.data h
      simp only [String.data_append, List.append_assoc] at hdata
      have h1 := List.append_cancel_left hdata
      apply String.ext
      simp only [String.data_append, List.append_assoc]
      exact h1.symm
    · intro h
      rw [h]
      apply String.ext
      simp only [String.data_append, List.append_assoc]
  refine ⟨hiff, ?_⟩
  intro hcolon hkey
  apply hcolon
  rw [hiff.mp hkey]
  simp only [String.data_append, List.mem_append]
  exact Or.inl (Or.inr (by decide))

/-- C30 on an id that cuid could generate: its record key is no counter key. -/
theorem record_key_counter_key_witness :
    ':' ∉ "cuid-1".data ∧ getAcceptsKey "t-lim" "2018-07-19" ≠ getTargetKey "cuid-1" :=
  ⟨by decide, (record_key_counter_key "cuid-1" "t-lim" "2018-07-19").2 (by decide)⟩

/-! ## Eligibility on stored records of any shape -/

/-- On an array of strings and a `geoState` that is a string, the call of `some`
returns what `List.any` returns. -/
theorem raw_someState_strings (js : Builtins) (g : String) (states : List String) :
    Raw.someState js (JSValue.string g) (states.map Raw.Item.string)
      = Except.ok (states.any (fun state => js.toLowerCase state == js.toLowerCase g)) := by
  induction states with
  | nil => rfl
  | cons state rest ih =>
    simp only [List.map_cons, Raw.someState, List.any_cons]
    cases hcmp : js.toLowerCase state == js.toLowerCase g
    · simpa using ih
    · simp

/-- An array of strings contains a string as a JSON value iff the list contains
it. -/
theorem raw_contains_strings (h : String) (hours : List String) :
    (hours.map Raw.Item.string).contains (Raw.Item.string h) = hours.contains h := by
  induction hours with
  | nil => rfl
  | cons x rest ih =>
    simp only [List.map_cons, List.contains_cons, ih]
    congr 1
    by_cases hx : h = x
    · subst hx; simp
    · have : Raw.Item.string h ≠ Raw.Item.string x := fun hh => hx (Raw.Item.string.inj hh)
      simp [hx, this]

/-- On a record whose `accept` member is well formed and a `geoState` that is a
string, `isTargetEligible` returns, and returns what the function on typed
records returns. -/
theorem raw_isTargetEligible_wellformed (js : Builtins) (T : Target) (g h : String) :
    Raw.isTargetEligible js (Raw.ofAccept T.accept) (JSValue.string g) h
      = Except.ok (isTargetEligible js T g h) := by
  unfold isTargetEligible
  cases hacc : T.accept with
  | none => simp [Raw.ofAccept, Raw.isTargetEligible, Accept.empty, Accept.geoStateIn,
      Accept.hourIn]
  | some a =>
    obtain ⟨geo, hour⟩ := a
    cases geo with
    | none =>
      cases hour with
      | none => simp [Raw.ofAccept, Raw.ofRuleGroup, Raw.isTargetEligible, Raw.Group.inValue,
          Accept.geoStateIn, Accept.hourIn]
      | some hg =>
        obtain ⟨hin⟩ := hg
        cases hin with
        | none => simp [Raw.ofAccept, Raw.ofRuleGroup, Raw.isTargetEligible,
            Raw.Group.inValue, Accept.geoStateIn, Accept.hourIn]
        | some hours => simp [Raw.ofAccept, Raw.ofRuleGroup, Raw.isTargetEligible,
            Raw.Group.inValue, Accept.geoStateIn, Accept.hourIn, raw_contains_strings]
    | some gg =>
      obtain ⟨gin⟩ := gg
      cases gin with
      | none =>
        cases hour with
        | none => simp [Raw.ofAccept, Raw.ofRuleGroup, Raw.isTargetEligible,
            Raw.Group.inValue, Accept.geoStateIn, Accept.hourIn]
        | some hg =>
          obtain ⟨hin⟩ := hg
          cases hin with
          | none => simp [Raw.ofAccept, Raw.ofRuleGroup, Raw.isTargetEligible,
              Raw.Group.inValue, Accept.geoStateIn, Accept.hourIn]
          | some hours => simp [Raw.ofAccept, Raw.ofRuleGroup, Raw.isTargetEligible,
              Raw.Group.inValue, Accept.geoStateIn, Accept.hourIn, raw_contains_strings]
      | some states =>
        cases hour with
        | none => simp [Raw.ofAccept, Raw.ofRuleGroup, Raw.isTargetEligible,
            Raw.Group.inValue, Accept.geoStateIn, Accept.hourIn, raw_someState_strings]
        | some hg =>
          obtain ⟨hin⟩ := hg
          cases hin with
          | none => simp [Raw.ofAccept, Raw.ofRuleGroup, Raw.isTargetEligible,
              Raw.Group.inValue, Accept.geoStateIn, Accept.hourIn, raw_someState_strings]
          | some hours => simp [Raw.ofAccept, Raw.ofRuleGroup, Raw.isTargetEligible,
              Raw.Group.inValue, Accept.geoStateIn, Accept.hourIn, raw_someState_strings,
              raw_contains_strings]

/-- The member `accept` sent as `null`: the update body `{ "accept": null }`
passes the update controller, which checks `value` and `maxAcceptsPerDay` only;
the record that `updateTarget` builds then has the `accept` member `null`, where
`createTarget` would have put the empty rule set; and on that record
`isTargetEligible` throws a `TypeError` for every `geoState` and every hour.  It
throws as well on a `$in` that is a string, which no controller checks. -/
theorem isTargetEligible_throws_on_stored_accept (js : Builtins) (existing : Raw.AcceptValue)
    (geoState : JSValue) (visitHour : String) :
    (TargetController.updateTarget js Sample.limitedFresh "t-lim" Sample.acceptOnlyBody).1
        = Except.ok Sample.limited ∧
      Raw.updatedAccept existing Raw.AcceptValue.null = Raw.AcceptValue.null ∧
      Raw.createdAccept Raw.AcceptValue.null
        = Raw.AcceptValue.value Raw.Group.nullish Raw.Group.nullish ∧
      Raw.isTargetEligible js (Raw.updatedAccept existing Raw.AcceptValue.null) geoState
          visitHour
        = Except.error "TypeError: Cannot read properties of null (reading geoState)" ∧
      Raw.isTargetEligible js (Raw.createdAccept Raw.AcceptValue.null) geoState visitHour
        = Except.ok true ∧
      Raw.isTargetEligible js
          (Raw.createdAccept
            (Raw.AcceptValue.value (Raw.Group.value (Raw.InValue.string "ca"))
              Raw.Group.nullish))
          geoState visitHour
        = Except.error "TypeError: accept.geoState.$in.some is not a function" := by
  refine ⟨rfl, rfl, rfl, rfl, rfl, ?_⟩
  simp [Raw.createdAccept, Raw.isTargetEligible, Raw.Group.inValue]

/-- C28 as stated fails: a create body whose `accept.geoState.$in` is the string
`ca` passes the create controller, which reads `url`, `value` and
`maxAcceptsPerDay` only; `createTarget` stores the member `accept` as sent; and
on that record `isTargetEligible` throws for the visit of the tests. -/
theorem isTargetEligible_total_counterexample :
    (∃ target, (TargetController.createTarget refBuiltins "cuid-1" Redis.empty
        Sample.zeroStringBody).1 = Except.ok target) ∧
      Raw.createdAccept
          (Raw.AcceptValue.value (Raw.Group.value (Raw.InValue.string "ca")) Raw.Group.nullish)
        = Raw.AcceptValue.value (Raw.Group.value (Raw.InValue.string "ca")) Raw.Group.nullish ∧
      ¬ ∃ b : Bool,
        Raw.isTargetEligible refBuiltins
            (Raw.createdAccept
              (Raw.AcceptValue.value (Raw.Group.value (Raw.InValue.string "ca"))
                Raw.Group.nullish))
            (JSValue.string "ca") "14"
          = Except.ok b := by
  refine ⟨⟨_, rfl⟩, rfl, ?_⟩
  rintro ⟨b, hb⟩
  simp [Raw.createdAccept, Raw.isTargetEligible, Raw.Group.inValue] at hb

/-- C28, amended: on a stored record whose `accept` member is missing or a rule
set whose groups are missing or carry a `$in` that is missing or an array of
strings, as `updateTarget` or `createTarget` stores it, and a `geoState` that is
a string, `isTargetEligible` returns a boolean, the one that the function on
typed records returns; on a record whose `accept.geoState.$in` is a truthy value
without the method `some`, it throws for every visit. -/
theorem isTargetEligible_total_on_rule_sets (js : Builtins) (T : Target) (g h : String)
    (hour : Raw.Group) (geoState : JSValue) (visitHour : String) :
    Raw.isTargetEligible js (Raw.ofAccept T.accept) (JSValue.string g) h
        = Except.ok (isTargetEligible js T g h) ∧
      Raw.isTargetEligible js (Raw.createdAccept (Raw.ofAccept T.accept)) (JSValue.string g) h
        = Except.ok (isTargetEligible js T g h) ∧
      Raw.isTargetEligible js
          (Raw.AcceptValue.value (Raw.Group.value Raw.InValue.other) hour) geoState visitHour
        = Except.error "TypeError: accept.geoState.$in.some is not a function" := by
  refine ⟨raw_isTargetEligible_wellformed js T g h, ?_, rfl⟩
  have hw := raw_isTargetEligible_wellformed js T g h
  cases hacc : T.accept with
  | none =>
    rw [hacc] at hw
    rw [← hw]
    rfl
  | some a =>
    rw [hacc] at hw
    exact hw

/-! ## Overlapping calls and the quota -/

/-- Steps of a call add up. -/
theorem call_run_add (js : Builtins) (m n : Nat) :
    ∀ (call : Call) (redis : Redis),
      Call.run js (m + n) call redis
        = Call.run js n (Call.run js m call redis).1 (Call.run js m call redis).2 := by
  induction m with
  | zero => intro call redis; simp [Call.run]
  | succ m ih =>
    intro call redis
    rw [Nat.succ_add]
    simp only [Call.run]
    exact ih _ _

/-- The turns of the loop of a call build the list that the loop of
`filterEligibleTargets` builds, and leave the store as it is. -/
theorem call_run_filtering (js : Builtins) (redis : Redis) (visit : Visit) :
    ∀ (rest eligible : List Target),
      Call.run js rest.length (Call.filtering visit rest eligible) redis
        = (Call.filtering visit []
            (rest.foldl
              (fun eligible target =>
                if !(isTargetEligible js target visit.geoState visit.hour) then eligible
                else
                  let accepts := getDailyAccepts redis target.id visit.dateKey
                  if JSNumber.lt accepts (js.parseInt target.maxAcceptsPerDay)
                  then eligible ++ [target] else eligible)
              eligible),
          redis) := by
  intro rest
  induction rest with
  | nil => intro eligible; rfl
  | cons t ts ih =>
    intro eligible
    simp only [List.length_cons, Call.run, Call.step, List.foldl_cons]
    cases isTargetEligible js t visit.geoState visit.hour <;>
      cases JSNumber.lt (getDailyAccepts redis t.id visit.dateKey)
        (js.parseInt t.maxAcceptsPerDay) <;>
      simp [ih]

/-- One more step of a call. -/
theorem call_run_succ (js : Builtins) (n : Nat) (call : Call) (redis : Redis) :
    Call.run js (n + 1) call redis
      = Call.run js n (Call.step js call redis).1 (Call.step js call redis).2 := rfl

/-- A settled call stays settled and sends no command. -/
theorem call_run_settled (js : Builtins) (outcome : Except String Decision) (redis : Redis) :
    ∀ n, Call.run js n (Call.settled outcome) redis = (Call.settled outcome, redis) := by
  intro n
  induction n with
  | zero => rfl
  | succ n ih =>
    rw [call_run_succ]
    exact ih

/-- The end of a call that found no candidate. -/
theorem call_finish_reject (js : Builtins) (visit : Visit) (redis : Redis) :
    Call.run js 3 (Call.filtering visit [] []) redis
      = (Call.settled (Except.ok Decision.reject), redis) := rfl

/-- The end of a call that found a best target: the two commands of
`incrementDailyAccepts`, then the accept decision. -/
theorem call_finish_accept (js : Builtins) (visit : Visit) (redis : Redis)
    (eligible : List Target) (best : Target) (hsel : selectBestTarget js eligible = some best) :
    Call.run js 3 (Call.filtering visit [] eligible) redis
      = (Call.settled (Except.ok (Decision.accept
          { id := best.id, url := best.url, value := best.value })),
        incrementDailyAccepts redis best.id visit.dateKey) := by
  have hne : ¬ eligible.length = 0 := by
    intro h0
    rw [(selectBestTarget_eq_none js eligible).mpr (List.length_eq_zero.mp h0)] at hsel
    exact Option.noConfusion hsel
  have h1 : Call.step js (Call.filtering visit [] eligible) redis
      = (Call.incrementing visit best, redis) := by
    simp only [Call.step, hne, if_false, hsel]
  rw [show (3 : Nat) = 2 + 1 from rfl, call_run_succ, h1]
  rfl

/-- A call that runs alone settles to what `routeVisitor` returns, on the store
that `routeVisitor` leaves: the steps of `Call` are the steps of the function. -/
theorem call_run_alone (js : Builtins) (redis : Redis) (visit : Visit) (decision : Decision)
    (after : Redis) (h : routeVisitor js redis visit = Except.ok (decision, after)) :
    Call.run js ((getAllTargets redis).length + 4) (Call.fetching visit) redis
      = (Call.settled (Except.ok decision), after) := by
  rw [routeVisitor_eq] at h
  rw [show (getAllTargets redis).length + 4 = ((getAllTargets redis).length + 3) + 1 by omega,
    call_run_succ]
  by_cases h0 : (getAllTargets redis).length = 0
  · have hnil : getAllTargets redis = [] := List.length_eq_zero.mp h0
    have hstep : Call.step js (Call.fetching visit) redis
        = (Call.settled (Except.ok Decision.reject), redis) := by
      simp only [Call.step, h0, if_true]
    rw [hstep, call_run_settled]
    rw [hnil] at h
    simp only [filterEligibleTargets, List.foldl_nil, selectBestTarget, Except.ok.injEq,
      Prod.mk.injEq] at h
    rw [← h.1, ← h.2]
  · have hstep : Call.step js (Call.fetching visit) redis
        = (Call.filtering visit (getAllTargets redis) [], redis) := by
      simp only [Call.step, h0, if_false]
    rw [hstep, call_run_add, call_run_filtering]
    have hcand : (getAllTargets redis).foldl
        (fun eligible target =>
          if !(isTargetEligible js target visit.geoState visit.hour) then eligible
          else
            let accepts := getDailyAccepts redis target.id visit.dateKey
            if JSNumber.lt accepts (js.parseInt target.maxAcceptsPerDay)
            then eligible ++ [target] else eligible)
        []
        = filterEligibleTargets js redis (getAllTargets redis)
            visit.geoState visit.hour visit.dateKey := rfl
    simp only [hcand]
    cases hsel : selectBestTarget js (filterEligibleTargets js redis (getAllTargets redis)
        visit.geoState visit.hour visit.dateKey) with
    | none =>
      rw [hsel] at h
      simp only [Except.ok.injEq, Prod.mk.injEq] at h
      rw [(selectBestTarget_eq_none js _).mp hsel, call_finish_reject, ← h.1, ← h.2]
    | some best =>
      rw [hsel] at h
      simp only [Except.ok.injEq, Prod.mk.injEq] at h
      rw [call_finish_accept js visit redis _ best hsel, ← h.1, ← h.2]

/-- A schedule in two parts: the later part runs on what the earlier part left. -/
theorem interleave_append (js : Builtins) :
    ∀ (before later : List Bool) (first second : Call) (redis : Redis),
      interleave js (before ++ later) first second redis
        = interleave js later (interleave js before first second redis).1
            (interleave js before first second redis).2.1
            (interleave js before first second redis).2.2 := by
  intro before
  induction before with
  | nil => intro later first second redis; rfl
  | cons b bs ih =>
    intro later first second redis
    cases b
    · exact ih later _ _ _
    · exact ih later _ _ _

/-- A schedule that gives every step to the first call runs that call alone. -/
theorem interleave_first_only (js : Builtins) (second : Call) :
    ∀ (n : Nat) (first : Call) (redis : Redis),
      interleave js (List.replicate n false) first second redis
        = ((Call.run js n first redis).1, second, (Call.run js n first redis).2) := by
  intro n
  induction n with
  | zero => intro first redis; rfl
  | succ n ih =>
    intro first redis
    exact ih _ _

/-- The first three steps of a call on a repository of one target with quota
left, for a visit that the rules accept: fetch, one turn of the loop, the choice
of the best target.  No command that writes is sent. -/
theorem call_steps_to_incrementing (js : Builtins) (redis : Redis) (target : Target) (N : Nat)
    (visit : Visit) (hrepo : getAllTargets redis = [target])
    (hmax : js.parseInt target.maxAcceptsPerDay = JSNumber.ofNat N)
    (hcount : (redis.counters (getAcceptsKey target.id visit.dateKey)).getD 0 < N)
    (hrule : isTargetEligible js target visit.geoState visit.hour = true) :
    Call.run js 3 (Call.fetching visit) redis = (Call.incrementing visit target, redis) := by
  have h1 : Call.step js (Call.fetching visit) redis
      = (Call.filtering visit [target] [], redis) := by
    simp [Call.step, hrepo]
  have h2 : Call.step js (Call.filtering visit [target] []) redis
      = (Call.filtering visit [] [target], redis) := by
    simp [Call.step, hrule, getDailyAccepts_eq, hmax, JSNumber.lt_ofNat, hcount]
  have h3 : Call.step js (Call.filtering visit [] [target]) redis
      = (Call.incrementing visit target, redis) := by
    simp [Call.step, selectBestTarget]
  rw [show (3 : Nat) = 2 + 1 from rfl, call_run_succ, h1,
    show (2 : Nat) = 1 + 1 from rfl, call_run_succ, h2,
    show (1 : Nat) = 0 + 1 from rfl, call_run_succ, h3]
  rfl

/-- C27: on a repository that holds one target whose counter for a UTC date is
one below the ceiling `N`, there is an interleaving of two `routeVisitor` calls
for visits of that date that the rules accept in which both calls pass the quota
test before either sends INCR (after six steps both are about to increment and
the store is as it was), both settle to an accept decision, the counter ends at
`N + 1`, two INCR commands have landed, and the quota invariant fails. -/
theorem interleaved_calls_exceed_quota (js : Builtins) (redis : Redis) (target : Target)
    (N : Nat) (first second : Visit)
    (hrepo : getAllTargets redis = [target])
    (hmax : js.parseInt target.maxAcceptsPerDay = JSNumber.ofNat N)
    (hcount : (redis.counters (getAcceptsKey target.id first.dateKey)).getD 0 + 1 = N)
    (hdate : second.dateKey = first.dateKey)
    (hfirst : isTargetEligible js target first.geoState first.hour = true)
    (hsecond : isTargetEligible js target second.geoState second.hour = true) :
    interleave js [false, false, false, true, true, true]
        (Call.fetching first) (Call.fetching second) redis
      = (Call.incrementing first target, Call.incrementing second target, redis) ∧
    ∃ after : Redis,
      interleave js [false, false, false, true, true, true, false, false, true, true]
          (Call.fetching first) (Call.fetching second) redis
        = (Call.settled (Except.ok (Decision.accept
              { id := target.id, url := target.url, value := target.value })),
            Call.settled (Except.ok (Decision.accept
              { id := target.id, url := target.url, value := target.value })),
            after) ∧
      after.counters (getAcceptsKey target.id first.dateKey) = some (N + 1) ∧
      after.writes = redis.writes ++
        [RedisWrite.incr (getAcceptsKey target.id first.dateKey),
          RedisWrite.expire (getAcceptsKey target.id first.dateKey) EXPIRE_SECONDS,
          RedisWrite.incr (getAcceptsKey target.id first.dateKey),
          RedisWrite.expire (getAcceptsKey target.id first.dateKey) EXPIRE_SECONDS] ∧
      ¬ QuotaInv js [target] after := by
  have hlt1 : (redis.counters (getAcceptsKey target.id first.dateKey)).getD 0 < N := by omega
  have hlt2 : (redis.counters (getAcceptsKey target.id second.dateKey)).getD 0 < N := by
    rw [hdate]; exact hlt1
  have hrun1 := call_steps_to_incrementing js redis target N first hrepo hmax hlt1 hfirst
  have hrun2 := call_steps_to_incrementing js redis target N second hrepo hmax hlt2 hsecond
  have hpre : interleave js [false, false, false, true, true, true]
        (Call.fetching first) (Call.fetching second) redis
      = (Call.incrementing first target, Call.incrementing second target, redis) := by
    have ha : interleave js [false, false, false, true, true, true]
          (Call.fetching first) (Call.fetching second) redis
        = ((Call.run js 3 (Call.fetching first) redis).1,
            (Call.run js 3 (Call.fetching second) (Call.run js 3 (Call.fetching first) redis).2).1,
            (Call.run js 3 (Call.fetching second)
              (Call.run js 3 (Call.fetching first) redis).2).2) := rfl
    rw [ha, hrun1, hrun2]
  refine ⟨hpre, incrementDailyAccepts (incrementDailyAccepts redis target.id first.dateKey)
    target.id first.dateKey, ?_, ?_, ?_, ?_⟩
  · rw [show [false, false, false, true, true, true, false, false, true, true]
        = [false, false, false, true, true, true] ++ [false, false, true, true] from rfl,
      interleave_append, hpre]
    have htail : interleave js [false, false, true, true]
          (Call.incrementing first target) (Call.incrementing second target) redis
        = (Call.settled (Except.ok (Decision.accept
              { id := target.id, url := target.url, value := target.value })),
            Call.settled (Except.ok (Decision.accept
              { id := target.id, url := target.url, value := target.value })),
            incrementDailyAccepts (incrementDailyAccepts redis target.id first.dateKey)
              target.id second.dateKey) := rfl
    rw [htail, hdate]
  · rw [incrementDailyAccepts_counters, if_pos rfl, incrementDailyAccepts_counters, if_pos rfl]
    simp only [Option.getD_some]
    rw [hcount]
  · simp [incrementDailyAccepts, Redis.expire, Redis.incr]
  · intro hinv
    have h := hinv target (List.mem_singleton.mpr rfl) N hmax first.timestamp
    have hkey : Date.isoDate first.timestamp = first.dateKey := rfl
    rw [hkey, incrementDailyAccepts_counters, if_pos rfl, incrementDailyAccepts_counters,
      if_pos rfl] at h
    simp only [Option.getD_some] at h
    omega

/-- C27 on the store of the daily-reset test: ceiling 1, no counter yet, two
visits at 14:28 UTC of 2018-07-19. -/
theorem interleaved_calls_exceed_quota_witness :
    getAllTargets Sample.dailyResetStore = [Sample.dailyReset] ∧
    refBuiltins.parseInt Sample.dailyReset.maxAcceptsPerDay = JSNumber.ofNat 1 ∧
    (Sample.dailyResetStore.counters
      (getAcceptsKey Sample.dailyReset.id Sample.visit14.dateKey)).getD 0 + 1 = 1 ∧
    (interleave refBuiltins [false, false, false, true, true, true]
        (Call.fetching Sample.visit14) (Call.fetching Sample.visit14) Sample.dailyResetStore
      = (Call.incrementing Sample.visit14 Sample.dailyReset,
          Call.incrementing Sample.visit14 Sample.dailyReset, Sample.dailyResetStore) ∧
    ∃ after : Redis,
      interleave refBuiltins
          [false, false, false, true, true, true, false, false, true, true]
          (Call.fetching Sample.visit14) (Call.fetching Sample.visit14) Sample.dailyResetStore
        = (Call.settled (Except.ok (Decision.accept
              { id := "t-day", url := "http://daily-reset.com", value := "1.00" })),
            Call.settled (Except.ok (Decision.accept
              { id := "t-day", url := "http://daily-reset.com", value := "1.00" })),
            after) ∧
      after.counters (getAcceptsKey "t-day" Sample.visit14.dateKey) = some (1 + 1) ∧
      after.writes = Sample.dailyResetStore.writes ++
        [RedisWrite.incr (getAcceptsKey "t-day" Sample.visit14.dateKey),
          RedisWrite.expire (getAcceptsKey "t-day" Sample.visit14.dateKey) EXPIRE_SECONDS,
          RedisWrite.incr (getAcceptsKey "t-day" Sample.visit14.dateKey),
          RedisWrite.expire (getAcceptsKey "t-day" Sample.visit14.dateKey) EXPIRE_SECONDS] ∧
      ¬ QuotaInv refBuiltins [Sample.dailyReset] after) :=
  ⟨by decide, by decide, by decide,
    interleaved_calls_exceed_quota refBuiltins Sample.dailyResetStore Sample.dailyReset 1
      Sample.visit14 Sample.visit14 (by decide) (by decide) (by decide) rfl (by decide)
      (by decide)⟩

end PingTree
